import Mathlib

/-!
Shallow embedding of the wallet-management ledger core
(`src/modules/wallet/wallet.service.ts`, `src/prisma.service` and the
Bull queue wiring).  Monetary values are `Decimal(20,8)` in Postgres —
fixed-point numbers with 8 fractional digits — so they are embedded
exactly as `Int` counts of 10⁻⁸ currency units (a written amount of
0.00000001 is 1); `decimal.js` arithmetic on such values is exact;
machine state (wallet table, transaction table, Redis balance cache,
queue contents) is explicit.  Every service method becomes a function
from a `SysState` and its inputs to a result together with the
post-state; NestJS exceptions become an `Err` sum.
-/

namespace WalletMgmt

/-- The `TransactionType` enum of `prisma/schema.prisma`. -/
inductive TransactionType
  | DEPOSIT
  | WITHDRAWAL
  | TRANSFER_OUT
  | TRANSFER_IN
deriving DecidableEq, Repr

/-- The `TransactionStatus` enum of `prisma/schema.prisma`. -/
inductive TransactionStatus
  | PENDING
  | COMPLETED
  | CANCELLED
  | FAILED
deriving DecidableEq, Repr

/-- A row of the `wallets` table: `id`, `userId`, `balance`
(`Decimal(20,8)`, embedded as `Int` units of 10⁻⁸), `isActive`, and the optimistic
`version` counter.  Timestamps are irrelevant to the claims and omitted. -/
structure Wallet where
  id : String
  userId : String
  balance : Int
  isActive : Bool
  version : Nat
deriving DecidableEq, Repr

/-- A row of the `transactions` table.  `transactionId` is the unique
idempotency key; `referenceId` groups the two rows of a transfer;
`destinationWalletId` is the counterparty of a transfer row. -/
structure Txn where
  transactionId : String
  referenceId : Option String
  walletId : String
  destinationWalletId : Option String
  amount : Int
  type : TransactionType
  status : TransactionStatus
  description : Option String
deriving DecidableEq, Repr

/-- A Bull job on the `transaction` queue, as enqueued by
`depositFunds` / `withdrawFunds` / `transferFunds` (amounts travel as
strings in the code; the value is what matters). -/
inductive Job
  | deposit (walletId : String) (amount : Int) (description : Option String)
      (transactionId : String)
  | withdrawal (walletId : String) (amount : Int) (description : Option String)
      (transactionId : String)
  | transfer (sourceWalletId destinationWalletId : String) (amount : Int)
      (description : Option String) (referenceId : String)
deriving DecidableEq, Repr

/-- The visible state: the two Postgres tables, the Redis balance cache
(key `wallet_balance_<id>`, represented by the wallet id, holding the
stringified balance, represented by its value), and the queue. -/
structure SysState where
  wallets : List Wallet
  transactions : List Txn
  cache : List (String × Int)
  queue : List Job
deriving DecidableEq, Repr

/-- The NestJS exceptions thrown by the service, plus the Prisma error
of a conditional `wallet.update` whose `{id, version}` predicate matched
no row (Prisma P2025, "record to update not found"; the test suite of
the repo simulates it as a plain Error, in either case a code outside
the retried set of P2034 and P2028). -/
inductive Err
  | notFound (msg : String)
  | badRequest (msg : String)
  | conflict (msg : String)
  | optimisticLockMiss
deriving DecidableEq, Repr

/-- Models `prisma.wallet.findFirst` with a where clause of id and isActive true. -/
def findWalletActive (s : SysState) (walletId : String) : Option Wallet :=
  s.wallets.find? (fun w => w.id == walletId && w.isActive)

/-- Models `prisma.wallet.findUnique` by id alone (no `isActive` filter),
as used inside the settlement processors. -/
def findWalletAny (s : SysState) (walletId : String) : Option Wallet :=
  s.wallets.find? (fun w => w.id == walletId)

/-- Models `prisma.transaction.findUnique` by `transactionId`. -/
def findTxnByTransactionId (s : SysState) (tid : String) : Option Txn :=
  s.transactions.find? (fun t => t.transactionId == tid)

/-- Models `prisma.transaction.findMany` by `referenceId`. -/
def findTxnsByReferenceId (s : SysState) (rid : String) : List Txn :=
  s.transactions.filter (fun t => t.referenceId == some rid)

/-- Models `redis.get` of key wallet_balance_ plus the wallet id; stored
values are non-empty JSON strings, so presence coincides with JS
truthiness. -/
def cacheGet (s : SysState) (walletId : String) : Option Int :=
  (s.cache.find? (fun kv => kv.1 == walletId)).map (fun kv => kv.2)

/-- Models `cacheWalletBalance`: a `redis.set` of the stringified balance
under the wallet-balance key with EX 300 — an upsert of the key. -/
def cacheSet (s : SysState) (walletId : String) (v : Int) : SysState :=
  { s with cache := (walletId, v) :: s.cache.filter (fun kv => kv.1 != walletId) }

/-- Models `invalidateWalletCache`: a `redis.del` of the wallet-balance key. -/
def cacheDel (s : SysState) (walletId : String) : SysState :=
  { s with cache := s.cache.filter (fun kv => kv.1 != walletId) }

/-- Models `prisma.wallet.update` whose where clause names both id and
the expected version and whose data increments balance by delta and
version by 1: `none` models the P2025 throw when the id/version
predicate matches no row; otherwise the matching row gets the balance
and version increments and the updated row is returned. -/
def updateWalletVersioned (ws : List Wallet) (walletId : String)
    (expectedVersion : Nat) (delta : Int) : Option (Wallet × List Wallet) :=
  match ws.find? (fun w => w.id == walletId && w.version == expectedVersion) with
  | none => none
  | some w =>
      let w' : Wallet :=
        { w with balance := w.balance + delta, version := w.version + 1 }
      some (w', ws.map (fun x =>
        if x.id == walletId && x.version == expectedVersion then w' else x))

/-- Models `prisma.transaction.updateMany` by `transactionId`, setting
the status — unconditional on the current status. -/
def setStatusByTransactionId (ts : List Txn) (tid : String)
    (st : TransactionStatus) : List Txn :=
  ts.map (fun t => if t.transactionId == tid then { t with status := st } else t)

/-- Models `prisma.transaction.updateMany` by `referenceId`, setting
the status — unconditional on the current status. -/
def setStatusByReferenceId (ts : List Txn) (rid : String)
    (st : TransactionStatus) : List Txn :=
  ts.map (fun t => if t.referenceId == some rid then { t with status := st } else t)

/-- Models `getWallet`: a `findFirst` on id and isActive true, throwing
NotFoundException with message "Wallet not found" when absent or
inactive. -/
def getWallet (s : SysState) (walletId : String) : Except Err Wallet :=
  match findWalletActive s walletId with
  | none => .error (.notFound "Wallet not found")
  | some w => .ok w

/-- Models `getWalletBalance`: cache first; on miss `getWallet` (so a
missing or inactive wallet throws NotFound), then populate the cache. -/
def getWalletBalance (s : SysState) (walletId : String) :
    Except Err Int × SysState :=
  match cacheGet s walletId with
  | some v => (.ok v, s)
  | none =>
      match getWallet s walletId with
      | .error e => (.error e, s)
      | .ok w => (.ok w.balance, cacheSet s walletId w.balance)

/-- Input of `createWallet`; the generated cuid `id` is a parameter. -/
structure CreateWalletInput where
  id : String
  userId : String
  initialBalance : Int
deriving Repr

/-- Models `createWallet`: unique `userId` (P2002 → ConflictException),
then insert with version 0 and isActive true and cache the balance. -/
def createWallet (s : SysState) (inp : CreateWalletInput) :
    Except Err Wallet × SysState :=
  if s.wallets.any (fun w => w.userId == inp.userId) then
    (.error (.conflict "User already has a wallet"), s)
  else
    let w : Wallet :=
      { id := inp.id, userId := inp.userId, balance := inp.initialBalance,
        isActive := true, version := 0 }
    (.ok w, cacheSet { s with wallets := s.wallets ++ [w] } inp.id inp.initialBalance)

/-- Input of `depositFunds` / `withdrawFunds`; the optional DTO field
`transactionId` (defaulted to a fresh uuid) is a parameter. -/
structure FundsInput where
  walletId : String
  amount : Int
  description : Option String
  transactionId : String
deriving Repr

/-- Models `depositFunds`: idempotency lookup by `transactionId` (return
the existing row as-is), else validate the wallet, insert one PENDING
DEPOSIT row and enqueue a deposit job. -/
def depositFunds (s : SysState) (inp : FundsInput) :
    Except Err Txn × SysState :=
  match findTxnByTransactionId s inp.transactionId with
  | some t => (.ok t, s)
  | none =>
      match getWallet s inp.walletId with
      | .error e => (.error e, s)
      | .ok _ =>
          let t : Txn :=
            { transactionId := inp.transactionId, referenceId := none,
              walletId := inp.walletId, destinationWalletId := none,
              amount := inp.amount, type := .DEPOSIT, status := .PENDING,
              description := inp.description }
          (.ok t,
           { s with transactions := s.transactions ++ [t],
                    queue := s.queue ++
                      [Job.deposit inp.walletId inp.amount inp.description
                        inp.transactionId] })

/-- Models `withdrawFunds`: idempotency lookup, then the cache-first
balance read; a balance below the amount throws BadRequestException
with message "Insufficient funds" and no row created; else insert one
PENDING WITHDRAWAL row and enqueue a withdrawal job. -/
def withdrawFunds (s : SysState) (inp : FundsInput) :
    Except Err Txn × SysState :=
  match findTxnByTransactionId s inp.transactionId with
  | some t => (.ok t, s)
  | none =>
      match getWalletBalance s inp.walletId with
      | (.error e, s₁) => (.error e, s₁)
      | (.ok bal, s₁) =>
          if bal < inp.amount then
            (.error (.badRequest "Insufficient funds"), s₁)
          else
            let t : Txn :=
              { transactionId := inp.transactionId, referenceId := none,
                walletId := inp.walletId, destinationWalletId := none,
                amount := inp.amount, type := .WITHDRAWAL, status := .PENDING,
                description := inp.description }
            (.ok t,
             { s₁ with transactions := s₁.transactions ++ [t],
                       queue := s₁.queue ++
                         [Job.withdrawal inp.walletId inp.amount inp.description
                           inp.transactionId] })

/-- Input of `transferFunds`; the two generated uuids for the pair of
rows are parameters. -/
structure TransferInput where
  sourceWalletId : String
  destinationWalletId : String
  amount : Int
  description : Option String
  referenceId : String
  outTransactionId : String
  inTransactionId : String
deriving Repr

/-- The TRANSFER_OUT row created by `transferFunds`. -/
def transferOutRow (inp : TransferInput) : Txn :=
  { transactionId := inp.outTransactionId, referenceId := some inp.referenceId,
    walletId := inp.sourceWalletId,
    destinationWalletId := some inp.destinationWalletId,
    amount := inp.amount, type := .TRANSFER_OUT, status := .PENDING,
    description := inp.description }

/-- The TRANSFER_IN row created by `transferFunds`. -/
def transferInRow (inp : TransferInput) : Txn :=
  { transactionId := inp.inTransactionId, referenceId := some inp.referenceId,
    walletId := inp.destinationWalletId,
    destinationWalletId := some inp.sourceWalletId,
    amount := inp.amount, type := .TRANSFER_IN, status := .PENDING,
    description := inp.description }

/-- Models `transferFunds`: idempotency lookup by `referenceId` (any
match returns the existing rows as-is), wallet validation for both
sides, cache-first balance check on the source, then one Prisma
transaction creating the OUT/IN pair in one atomic write and enqueueing
one transfer job. -/
def transferFunds (s : SysState) (inp : TransferInput) :
    Except Err (List Txn) × SysState :=
  if (findTxnsByReferenceId s inp.referenceId).length > 0 then
    (.ok (findTxnsByReferenceId s inp.referenceId), s)
  else
    match getWallet s inp.sourceWalletId with
    | .error e => (.error e, s)
    | .ok _ =>
        match getWallet s inp.destinationWalletId with
        | .error e => (.error e, s)
        | .ok _ =>
            match getWalletBalance s inp.sourceWalletId with
            | (.error e, s₁) => (.error e, s₁)
            | (.ok bal, s₁) =>
                if bal < inp.amount then
                  (.error (.badRequest "Insufficient funds"), s₁)
                else
                  (.ok [transferOutRow inp, transferInRow inp],
                   { s₁ with
                      transactions := s₁.transactions ++
                        [transferOutRow inp, transferInRow inp],
                      queue := s₁.queue ++
                        [Job.transfer inp.sourceWalletId inp.destinationWalletId
                          inp.amount inp.description inp.referenceId] })

/-- Payload of a `deposit` / `withdrawal` settlement job as consumed by
`processDeposit` / `processWithdrawal`. -/
structure SettleData where
  walletId : String
  amount : Int
  transactionId : String
deriving Repr

/-- Models `processDeposit`: inside `executeTransaction`, `findUnique`
the wallet (no `isActive` filter, no ledger-status re-check), version-
predicated balance increment, unconditional `updateMany` of the row to
COMPLETED, then refresh the cache.  Any thrown error rolls the unit of
work back and the catch block marks the row FAILED (a separate write,
outside the transaction) and rethrows. -/
def processDeposit (s : SysState) (d : SettleData) :
    Except Err Unit × SysState :=
  match findWalletAny s d.walletId with
  | none =>
      (.error (.notFound "Wallet not found"),
       { s with transactions :=
          setStatusByTransactionId s.transactions d.transactionId .FAILED })
  | some w =>
      match updateWalletVersioned s.wallets d.walletId w.version d.amount with
      | none =>
          (.error .optimisticLockMiss,
           { s with transactions :=
              setStatusByTransactionId s.transactions d.transactionId .FAILED })
      | some (w', ws') =>
          let s' : SysState :=
            { s with wallets := ws',
                     transactions :=
                       setStatusByTransactionId s.transactions d.transactionId
                         .COMPLETED }
          (.ok (), cacheSet s' d.walletId w'.balance)

/-- Models `processWithdrawal`: like `processDeposit` but with the in-
transaction insufficient-funds check (BadRequest, never retried) and a
balance decrement. -/
def processWithdrawal (s : SysState) (d : SettleData) :
    Except Err Unit × SysState :=
  match findWalletAny s d.walletId with
  | none =>
      (.error (.notFound "Wallet not found"),
       { s with transactions :=
          setStatusByTransactionId s.transactions d.transactionId .FAILED })
  | some w =>
      if w.balance < d.amount then
        (.error (.badRequest "Insufficient funds"),
         { s with transactions :=
            setStatusByTransactionId s.transactions d.transactionId .FAILED })
      else
        match updateWalletVersioned s.wallets d.walletId w.version (-d.amount) with
        | none =>
            (.error .optimisticLockMiss,
             { s with transactions :=
                setStatusByTransactionId s.transactions d.transactionId .FAILED })
        | some (w', ws') =>
            let s' : SysState :=
              { s with wallets := ws',
                       transactions :=
                         setStatusByTransactionId s.transactions d.transactionId
                           .COMPLETED }
            (.ok (), cacheSet s' d.walletId w'.balance)

/-- Payload of a `transfer` settlement job. -/
structure TransferData where
  sourceWalletId : String
  destinationWalletId : String
  amount : Int
  referenceId : String
deriving Repr

/-- Lexicographic strict order on char lists, as JS string comparison
orders the code units of two wallet ids (cuids are ASCII, where code
units and code points agree). -/
def charListLt : List Char → List Char → Bool
  | _, [] => false
  | [], _ :: _ => true
  | a :: as, b :: bs => a < b || (a == b && charListLt as bs)

/-- JS `<` on the underlying character sequences of two strings. -/
def jsStringLt (a b : String) : Bool :=
  charListLt a.data b.data

/-- Models the JS default sort of the two-element id array —
lexicographic ascending on the two id strings. -/
def sortedPair (a b : String) : List String :=
  if jsStringLt b a then [b, a] else [a, b]

/-- Observable call order of `processTransfer`: the id list handed to
the batch `findMany` read, and the wallet ids in the order the two
conditional `wallet.update` calls are issued. -/
structure TransferTrace where
  readIds : List String
  updateOrder : List String
deriving DecidableEq, Repr

/-- Models `processTransfer`: sorts the two ids for the `findMany` read,
re-finds source and destination from the result, checks the source
balance, then issues the version-predicated updates — source first,
then destination — marks both rows COMPLETED by `referenceId`, and
refreshes both cache entries.  On any throw the unit of work rolls back
and the catch marks both rows FAILED.  The returned `TransferTrace`
records the read id list and the update call order. -/
def processTransfer (s : SysState) (d : TransferData) :
    Except Err Unit × SysState × TransferTrace :=
  let walletIds := sortedPair d.sourceWalletId d.destinationWalletId
  match findWalletAny s d.sourceWalletId, findWalletAny s d.destinationWalletId with
  | some sw, some dw =>
      if sw.balance < d.amount then
        (.error (.badRequest "Insufficient funds"),
         { s with transactions :=
            setStatusByReferenceId s.transactions d.referenceId .FAILED },
         ⟨walletIds, []⟩)
      else
        match updateWalletVersioned s.wallets d.sourceWalletId sw.version
            (-d.amount) with
        | none =>
            (.error .optimisticLockMiss,
             { s with transactions :=
                setStatusByReferenceId s.transactions d.referenceId .FAILED },
             ⟨walletIds, [d.sourceWalletId]⟩)
        | some (sw', ws₁) =>
            match updateWalletVersioned ws₁ d.destinationWalletId dw.version
                d.amount with
            | none =>
                (.error .optimisticLockMiss,
                 { s with transactions :=
                    setStatusByReferenceId s.transactions d.referenceId .FAILED },
                 ⟨walletIds, [d.sourceWalletId, d.destinationWalletId]⟩)
            | some (dw', ws₂) =>
                let s' : SysState :=
                  { s with wallets := ws₂,
                           transactions :=
                             setStatusByReferenceId s.transactions d.referenceId
                               .COMPLETED }
                (.ok (),
                 cacheSet (cacheSet s' d.sourceWalletId sw'.balance)
                   d.destinationWalletId dw'.balance,
                 ⟨walletIds, [d.sourceWalletId, d.destinationWalletId]⟩)
  | _, _ =>
      (.error (.notFound "One or both wallets not found"),
       { s with transactions :=
          setStatusByReferenceId s.transactions d.referenceId .FAILED },
       ⟨walletIds, []⟩)

/-- Models `deactivateWallet`: `getWallet` (active check), then the
cache-first `getWalletBalance`; a positive balance throws BadRequest;
else a `wallet.update` clearing isActive (note: no version increment)
and a `redis.del` of the cache entry. -/
def deactivateWallet (s : SysState) (walletId : String) :
    Except Err Wallet × SysState :=
  match getWallet s walletId with
  | .error e => (.error e, s)
  | .ok w =>
      match getWalletBalance s walletId with
      | (.error e, s₁) => (.error e, s₁)
      | (.ok bal, s₁) =>
          if 0 < bal then
            (.error (.badRequest "Cannot deactivate wallet with non-zero balance"),
             s₁)
          else
            (.ok { w with isActive := false },
             cacheDel
               { s₁ with wallets := s₁.wallets.map (fun x =>
                  if x.id == walletId then { x with isActive := false } else x) }
               walletId)

/-!  `PrismaService.executeTransaction` retry loop (`prisma.service`):
`for (i = 0; i < maxRetries; i++)` around `$transaction`, retrying only
the Prisma error codes P2034 (serialization failure) and P2028
(transaction timeout), sleeping `2^i * 100` ms after each such failure,
and rethrowing any other error immediately; after the loop, the last
error is thrown.  Modelled over an oracle giving the outcome of each
attempt. -/

/-- Prisma error codes as dispatched on by the catch clause of
`executeTransaction`. -/
inductive PrismaErr
  | P2034
  | P2028
  | other (code : String)
deriving DecidableEq, Repr

/-- Models the catch-clause check that the error code is P2034 or
P2028. -/
def isRetryable : PrismaErr → Bool
  | .P2034 => true
  | .P2028 => true
  | .other _ => false

/-- The Prisma error thrown by `wallet.update` when the `{id, version}`
predicate matches no row: P2025 ("record to update not found") — not a
code `executeTransaction` retries (the test of the repo simulates it as
a plain codeless Error, equally non-retryable). -/
def versionPredicateMissErr : PrismaErr := .other "P2025"

/-- Outcome of the retry loop: final result, the sleep delays performed
(ms), and how many attempts were made. -/
structure ExecOutcome (α : Type) where
  result : Except PrismaErr α
  delays : List Nat
  attempts : Nat
deriving Repr

/-- One pass of the `for` loop of `executeTransaction`, from iteration
`i` with `fuel` iterations left; `last` is the error of the previous
iteration (thrown when the loop ends). -/
def executeTransactionGo (attempt : Nat → Except PrismaErr α) :
    Nat → Nat → PrismaErr → ExecOutcome α
  | _, 0, last => ⟨.error last, [], 0⟩
  | i, fuel + 1, _ =>
      match attempt i with
      | .ok a => ⟨.ok a, [], 1⟩
      | .error e =>
          if isRetryable e then
            let rest := executeTransactionGo attempt (i + 1) fuel e
            ⟨rest.result, 2 ^ i * 100 :: rest.delays, rest.attempts + 1⟩
          else ⟨.error e, [], 1⟩

/-- Models `executeTransaction` with its default of 3 retries, over an
oracle giving the outcome of the transaction body at each attempt
index. -/
def executeTransaction (attempt : Nat → Except PrismaErr α)
    (maxRetries : Nat := 3) : ExecOutcome α :=
  executeTransactionGo attempt 0 maxRetries (.other "uninitialized")

/-! ### Generic list lemmas -/

/-- A `find?` commutes with a `map` that does not change whether the
predicate holds. -/
theorem list_find?_map_eq {α : Type} (p : α → Bool) (g : α → α)
    (h : ∀ x, p (g x) = p x) :
    ∀ l : List α, (l.map g).find? p = (l.find? p).map g := by
  intro l
  induction l with
  | nil => rfl
  | cons a l ih =>
      by_cases ha : p a = true
      · simp [List.find?_cons, h a, ha]
      · simp only [Bool.not_eq_true] at ha
        simp [List.find?_cons, h a, ha, ih]

/-- Strengthening the predicate of a successful `find?` by a conjunct
the found element satisfies does not change the result. -/
theorem list_find?_and_right {α : Type} (p q : α → Bool) {l : List α} {a : α}
    (h : l.find? p = some a) (hq : q a = true) :
    l.find? (fun x => p x && q x) = some a := by
  induction l with
  | nil => simp at h
  | cons b l ih =>
      by_cases hb : p b = true
      · rw [List.find?_cons_of_pos _ hb] at h
        cases h
        rw [List.find?_cons_of_pos]
        simp [hb, hq]
      · simp only [Bool.not_eq_true] at hb
        rw [List.find?_cons_of_neg _ (by simp [hb])] at h
        rw [List.find?_cons_of_neg _ (by simp [hb])]
        exact ih h

/-! ### Characterizing the conditional update -/

/-- The wallet obtained by applying the conditional balance update. -/
def bumped (w : Wallet) (δ : Int) : Wallet :=
  { w with balance := w.balance + δ, version := w.version + 1 }

/-- The wallet list after the conditional update replaced every
`{id, version}` match by `w'`. -/
def updatedWallets (ws : List Wallet) (walletId : String) (ver : Nat)
    (w' : Wallet) : List Wallet :=
  ws.map (fun x => if x.id == walletId && x.version == ver then w' else x)

/-- When `expectedVersion` is taken from the first row with the given
id — as every settlement processor does — the conditional update finds
exactly that row and replaces all `{id, version}` matches by its bumped
copy. -/
theorem updateWalletVersioned_of_found {ws : List Wallet} {walletId : String}
    {w : Wallet} (δ : Int) (h : ws.find? (fun x => x.id == walletId) = some w) :
    updateWalletVersioned ws walletId w.version δ =
      some (bumped w δ, updatedWallets ws walletId w.version (bumped w δ)) := by
  unfold updateWalletVersioned
  have h2 : ws.find? (fun (x : Wallet) => x.id == walletId && x.version == w.version) = some w :=
    list_find?_and_right (fun (x : Wallet) => x.id == walletId)
      (fun (x : Wallet) => x.version == w.version) h (by simp)
  rw [h2]
  rfl

/-- The post-update wallet list, looked up by any id: `find?` commutes
with the replacement map, because the replacement preserves ids. -/
theorem find?_updatedWallets {walletId : String} {w' : Wallet}
    (ws : List Wallet) (ver : Nat) (hid : w'.id = walletId) (queryId : String) :
    ((updatedWallets ws walletId ver w').find? (fun x => x.id == queryId)) =
    ((ws.find? (fun x => x.id == queryId)).map (fun x =>
        if x.id == walletId && x.version == ver then w' else x)) := by
  apply list_find?_map_eq
  intro x
  by_cases hx : (x.id == walletId && x.version == ver) = true
  · have hxid : x.id = walletId := by
      have hand := (Bool.and_eq_true _ _).mp hx
      exact eq_of_beq hand.1
    rw [if_pos hx]
    simp [hid, hxid]
  · rw [if_neg hx]

/-- Every element of the updated list is either an original element or
the replacement wallet. -/
theorem mem_updatedWallets {ws : List Wallet} {walletId : String} {ver : Nat}
    {w' : Wallet} {x : Wallet} (hx : x ∈ updatedWallets ws walletId ver w') :
    x ∈ ws ∨ x = w' := by
  unfold updatedWallets at hx
  rcases List.mem_map.mp hx with ⟨y, hy, hxy⟩
  by_cases hcond : (y.id == walletId && y.version == ver) = true
  · rw [if_pos hcond] at hxy
    exact Or.inr hxy.symm
  · rw [if_neg hcond] at hxy
    exact Or.inl (hxy ▸ hy)

/-- The replacement performed by the conditional update bumps the found
element: the element the update writes exists in the original list. -/
theorem updateWalletVersioned_some {ws : List Wallet} {walletId : String}
    {ver : Nat} {δ : Int} {w' : Wallet} {ws' : List Wallet}
    (h : updateWalletVersioned ws walletId ver δ = some (w', ws')) :
    ∃ w, ws.find? (fun x => x.id == walletId && x.version == ver) = some w ∧
      w' = bumped w δ ∧ ws' = updatedWallets ws walletId ver w' := by
  unfold updateWalletVersioned at h
  cases hf : ws.find? (fun x => x.id == walletId && x.version == ver) with
  | none => rw [hf] at h; cases h
  | some w =>
      rw [hf] at h
      refine ⟨w, rfl, ?_⟩
      cases h
      exact ⟨rfl, rfl⟩

/-! ### Status evolution -/

/-- Relation between ledger tables before and after an operation whose
only status writes set terminal statuses: rows evolve pointwise, each
either untouched or rewritten to COMPLETED or FAILED, and nothing else
about a row changes. -/
def onlyTerminalWrites (ts ts' : List Txn) : Prop :=
  List.Forall₂ (fun t t' => t' = t ∨ t' = { t with status := .COMPLETED } ∨
    t' = { t with status := .FAILED }) ts ts'

theorem onlyTerminalWrites_refl (ts : List Txn) : onlyTerminalWrites ts ts := by
  unfold onlyTerminalWrites
  induction ts with
  | nil => exact List.Forall₂.nil
  | cons t ts ih => exact List.Forall₂.cons (Or.inl rfl) ih

theorem onlyTerminalWrites_setTid (ts : List Txn) (tid : String)
    {st : TransactionStatus} (h : st = .COMPLETED ∨ st = .FAILED) :
    onlyTerminalWrites ts (setStatusByTransactionId ts tid st) := by
  unfold onlyTerminalWrites setStatusByTransactionId
  induction ts with
  | nil => exact List.Forall₂.nil
  | cons t ts ih =>
      refine List.Forall₂.cons ?_ ih
      by_cases ht : (t.transactionId == tid) = true
      · simp only [ht, if_pos]
        rcases h with h | h
        · exact Or.inr (Or.inl (by rw [h]))
        · exact Or.inr (Or.inr (by rw [h]))
      · simp only [ht]
        exact Or.inl (by simp)

theorem onlyTerminalWrites_setRef (ts : List Txn) (rid : String)
    {st : TransactionStatus} (h : st = .COMPLETED ∨ st = .FAILED) :
    onlyTerminalWrites ts (setStatusByReferenceId ts rid st) := by
  unfold onlyTerminalWrites setStatusByReferenceId
  induction ts with
  | nil => exact List.Forall₂.nil
  | cons t ts ih =>
      refine List.Forall₂.cons ?_ ih
      by_cases ht : (t.referenceId == some rid) = true
      · simp only [ht, if_pos]
        rcases h with h | h
        · exact Or.inr (Or.inl (by rw [h]))
        · exact Or.inr (Or.inr (by rw [h]))
      · simp only [ht]
        exact Or.inl (by simp)

/-! ### State-component lemmas for the read path -/

theorem getWalletBalance_wallets (s : SysState) (walletId : String) :
    (getWalletBalance s walletId).2.wallets = s.wallets := by
  unfold getWalletBalance
  split
  · rfl
  · split <;> rfl

theorem getWalletBalance_transactions (s : SysState) (walletId : String) :
    (getWalletBalance s walletId).2.transactions = s.transactions := by
  unfold getWalletBalance
  split
  · rfl
  · split <;> rfl

theorem getWalletBalance_queue (s : SysState) (walletId : String) :
    (getWalletBalance s walletId).2.queue = s.queue := by
  unfold getWalletBalance
  split
  · rfl
  · split <;> rfl

/-! ### C2: idempotent replay of the request paths -/

/-- C2.  A deposit or withdrawal whose `transactionId` matches an
existing ledger row, and a transfer whose `referenceId` matches at
least one row, return the existing row(s) as-is with the entire state —
ledger, wallets, cache, queue — unchanged: no new rows, no enqueue. -/
theorem c2_idempotent_replay :
    (∀ (s : SysState) (inp : FundsInput) (t : Txn),
        findTxnByTransactionId s inp.transactionId = some t →
        depositFunds s inp = (.ok t, s)) ∧
    (∀ (s : SysState) (inp : FundsInput) (t : Txn),
        findTxnByTransactionId s inp.transactionId = some t →
        withdrawFunds s inp = (.ok t, s)) ∧
    (∀ (s : SysState) (inp : TransferInput),
        findTxnsByReferenceId s inp.referenceId ≠ [] →
        transferFunds s inp = (.ok (findTxnsByReferenceId s inp.referenceId), s)) := by
  refine ⟨?_, ?_, ?_⟩
  · intro s inp t h
    simp [depositFunds, h]
  · intro s inp t h
    simp [withdrawFunds, h]
  · intro s inp h
    have hl : 0 < (findTxnsByReferenceId s inp.referenceId).length :=
      List.length_pos.mpr h
    simp [transferFunds, hl]

def c2Txn : Txn := ⟨"t1", some "r1", "w1", none, 5, .DEPOSIT, .PENDING, none⟩

def c2State : SysState := ⟨[⟨"w1", "u1", 100, true, 0⟩], [c2Txn], [], []⟩

/-- Witness for C2 at a concrete one-row ledger. -/
theorem c2_idempotent_replay_witness :
    depositFunds c2State ⟨"w1", 5, none, "t1"⟩ = (.ok c2Txn, c2State) ∧
    withdrawFunds c2State ⟨"w1", 5, none, "t1"⟩ = (.ok c2Txn, c2State) ∧
    transferFunds c2State ⟨"w1", "w2", 5, none, "r1", "a", "b"⟩ =
      (.ok [c2Txn], c2State) :=
  ⟨c2_idempotent_replay.1 c2State ⟨"w1", 5, none, "t1"⟩ c2Txn (by rfl),
   c2_idempotent_replay.2.1 c2State ⟨"w1", 5, none, "t1"⟩ c2Txn (by rfl),
   c2_idempotent_replay.2.2 c2State ⟨"w1", "w2", 5, none, "r1", "a", "b"⟩ (by decide)⟩

/-! ### C7: the transfer pair is created atomically -/

/-- C7.  `transferFunds` either leaves the ledger exactly as it was
(every failure or replay path) or appends, in one atomic write, exactly
the TRANSFER_OUT/TRANSFER_IN pair: both PENDING, sharing the
`referenceId`, on source resp. destination wallet, each naming the
other wallet as counterparty — never one row without the other. -/
theorem c7_transfer_pair_atomic (s : SysState) (inp : TransferInput) :
    ((transferFunds s inp).2.transactions = s.transactions) ∨
    ((transferFunds s inp).1 = .ok [transferOutRow inp, transferInRow inp] ∧
     (transferFunds s inp).2.transactions =
       s.transactions ++ [transferOutRow inp, transferInRow inp] ∧
     (transferOutRow inp).status = .PENDING ∧
     (transferInRow inp).status = .PENDING ∧
     (transferOutRow inp).type = .TRANSFER_OUT ∧
     (transferInRow inp).type = .TRANSFER_IN ∧
     (transferOutRow inp).referenceId = some inp.referenceId ∧
     (transferInRow inp).referenceId = some inp.referenceId ∧
     (transferOutRow inp).walletId = inp.sourceWalletId ∧
     (transferOutRow inp).destinationWalletId = some inp.destinationWalletId ∧
     (transferInRow inp).walletId = inp.destinationWalletId ∧
     (transferInRow inp).destinationWalletId = some inp.sourceWalletId) := by
  unfold transferFunds
  split
  · left; rfl
  · split
    · left; rfl
    · split
      · left; rfl
      · split
        · next x e s₁ heq =>
            left
            have := getWalletBalance_transactions s inp.sourceWalletId
            rw [heq] at this
            exact this
        · next x bal s₁ heq =>
            split
            · left
              have := getWalletBalance_transactions s inp.sourceWalletId
              rw [heq] at this
              exact this
            · right
              have := getWalletBalance_transactions s inp.sourceWalletId
              rw [heq] at this
              refine ⟨rfl, ?_, rfl, rfl, rfl, rfl, rfl, rfl, rfl, rfl, rfl, rfl⟩
              simpa using congrArg (fun l => l ++ [transferOutRow inp, transferInRow inp]) this

/-- The only error `getWallet` ever throws is NotFound with message
"Wallet not found". -/
theorem getWallet_error_eq {s : SysState} {walletId : String} {e : Err}
    (h : getWallet s walletId = .error e) :
    e = .notFound "Wallet not found" := by
  unfold getWallet at h
  cases hf : findWalletActive s walletId with
  | none => rw [hf] at h; cases h; rfl
  | some w => rw [hf] at h; cases h

/-! ### C10: deactivated wallets are indistinguishable from absent ones -/

/-- C10.  When every wallet row with the given id is inactive — in
particular when a deactivated row exists, and vacuously when no row
exists at all — `getWallet` throws NotFound "Wallet not found", and
so do `getWalletBalance` on a cache miss and the wallet-existence
validation inside `depositFunds` and `transferFunds` (on either side of
a transfer), each leaving the state unchanged. -/
theorem c10_deactivated_like_absent (s : SysState) (walletId : String)
    (h : ∀ w ∈ s.wallets, w.id = walletId → w.isActive = false) :
    getWallet s walletId = .error (.notFound "Wallet not found") ∧
    (cacheGet s walletId = none →
      getWalletBalance s walletId = (.error (.notFound "Wallet not found"), s)) ∧
    (∀ inp : FundsInput, inp.walletId = walletId →
      findTxnByTransactionId s inp.transactionId = none →
      depositFunds s inp = (.error (.notFound "Wallet not found"), s)) ∧
    (∀ inp : TransferInput, inp.sourceWalletId = walletId →
      findTxnsByReferenceId s inp.referenceId = [] →
      transferFunds s inp = (.error (.notFound "Wallet not found"), s)) ∧
    (∀ inp : TransferInput, inp.destinationWalletId = walletId →
      findTxnsByReferenceId s inp.referenceId = [] →
      transferFunds s inp = (.error (.notFound "Wallet not found"), s)) := by
  have hfa : findWalletActive s walletId = none := by
    apply List.find?_eq_none.mpr
    intro x hx
    intro hcontra
    have hand := (Bool.and_eq_true _ _).mp hcontra
    have hid : x.id = walletId := eq_of_beq hand.1
    have : x.isActive = false := h x hx hid
    rw [this] at hand
    exact Bool.false_ne_true hand.2
  have hgw : getWallet s walletId = .error (.notFound "Wallet not found") := by
    simp [getWallet, hfa]
  refine ⟨hgw, ?_, ?_, ?_, ?_⟩
  · intro hmiss
    simp [getWalletBalance, hmiss, hgw]
  · intro inp hid hnone
    rw [← hid] at hgw
    simp [depositFunds, hnone, hgw]
  · intro inp hid hnone
    rw [← hid] at hgw
    have hl : ¬ 0 < (findTxnsByReferenceId s inp.referenceId).length := by
      simp [hnone]
    simp only [transferFunds, hl, if_false]
    simp [hgw]
  · intro inp hid hnone
    rw [← hid] at hgw
    have hl : ¬ 0 < (findTxnsByReferenceId s inp.referenceId).length := by
      simp [hnone]
    simp only [transferFunds, hl, if_false]
    cases hsrc : getWallet s inp.sourceWalletId with
    | error e => simp [hsrc, getWallet_error_eq hsrc]
    | ok w => simp [hsrc, hgw]

def c10State : SysState := ⟨[⟨"wD", "uD", 0, false, 3⟩, ⟨"wA", "uA", 7, true, 0⟩], [], [], []⟩

/-- Witness for C10: a deactivated wallet `wD` next to an active one. -/
theorem c10_deactivated_like_absent_witness :
    getWallet c10State "wD" = .error (.notFound "Wallet not found") ∧
    getWalletBalance c10State "wD" = (.error (.notFound "Wallet not found"), c10State) ∧
    depositFunds c10State ⟨"wD", 5, none, "t1"⟩ =
      (.error (.notFound "Wallet not found"), c10State) ∧
    transferFunds c10State ⟨"wD", "wA", 5, none, "r1", "a", "b"⟩ =
      (.error (.notFound "Wallet not found"), c10State) ∧
    transferFunds c10State ⟨"wA", "wD", 5, none, "r1", "a", "b"⟩ =
      (.error (.notFound "Wallet not found"), c10State) := by
  have base := c10_deactivated_like_absent c10State "wD" (by decide)
  exact ⟨base.1, base.2.1 (by rfl),
    base.2.2.1 ⟨"wD", 5, none, "t1"⟩ rfl (by rfl),
    base.2.2.2.1 ⟨"wD", "wA", 5, none, "r1", "a", "b"⟩ rfl (by rfl),
    base.2.2.2.2 ⟨"wA", "wD", 5, none, "r1", "a", "b"⟩ rfl (by rfl)⟩

/-! ### Success paths of the settlement processors -/

theorem cacheSet_wallets (s : SysState) (walletId : String) (v : Int) :
    (cacheSet s walletId v).wallets = s.wallets := rfl

theorem cacheSet_transactions (s : SysState) (walletId : String) (v : Int) :
    (cacheSet s walletId v).transactions = s.transactions := rfl

/-- Running `processDeposit` on a state whose wallet table contains the target
id: the body finds the wallet, the conditional update necessarily
matches (the expected version was read in the same unit of work), the
row is marked COMPLETED and the cache refreshed — regardless of the
ledger row's current status. -/
theorem processDeposit_success {s : SysState} {d : SettleData} {w : Wallet}
    (h : findWalletAny s d.walletId = some w) :
    processDeposit s d =
      (.ok (), cacheSet
        { s with
            wallets := updatedWallets s.wallets d.walletId w.version
              (bumped w d.amount),
            transactions := setStatusByTransactionId s.transactions
              d.transactionId .COMPLETED }
        d.walletId (bumped w d.amount).balance) := by
  have h' : s.wallets.find? (fun x => x.id == d.walletId) = some w := h
  simp only [processDeposit, h, updateWalletVersioned_of_found d.amount h']

/-- Running `processWithdrawal` on a sufficient balance: decrement committed,
row marked COMPLETED, cache refreshed. -/
theorem processWithdrawal_success {s : SysState} {d : SettleData} {w : Wallet}
    (h : findWalletAny s d.walletId = some w) (hbal : ¬ w.balance < d.amount) :
    processWithdrawal s d =
      (.ok (), cacheSet
        { s with
            wallets := updatedWallets s.wallets d.walletId w.version
              (bumped w (-d.amount)),
            transactions := setStatusByTransactionId s.transactions
              d.transactionId .COMPLETED }
        d.walletId (bumped w (-d.amount)).balance) := by
  have h' : s.wallets.find? (fun x => x.id == d.walletId) = some w := h
  simp only [processWithdrawal, h, if_neg hbal,
    updateWalletVersioned_of_found (-d.amount) h']

/-- Running `processTransfer` on two distinct existing wallets with a
sufficient source balance: both conditional updates match, the source
is debited, the destination credited, both rows are marked COMPLETED
and both cache entries refreshed; the update call order is source
first, destination second. -/
theorem processTransfer_success {s : SysState} {d : TransferData} {sw dw : Wallet}
    (hsw : findWalletAny s d.sourceWalletId = some sw)
    (hdw : findWalletAny s d.destinationWalletId = some dw)
    (hne : d.sourceWalletId ≠ d.destinationWalletId)
    (hbal : ¬ sw.balance < d.amount) :
    processTransfer s d =
      (.ok (),
       cacheSet (cacheSet
         { s with
             wallets := updatedWallets
               (updatedWallets s.wallets d.sourceWalletId sw.version
                 (bumped sw (-d.amount)))
               d.destinationWalletId dw.version (bumped dw d.amount),
             transactions := setStatusByReferenceId s.transactions
               d.referenceId .COMPLETED }
         d.sourceWalletId (bumped sw (-d.amount)).balance)
         d.destinationWalletId (bumped dw d.amount).balance,
       ⟨sortedPair d.sourceWalletId d.destinationWalletId,
        [d.sourceWalletId, d.destinationWalletId]⟩) := by
  have hsw' : s.wallets.find? (fun x => x.id == d.sourceWalletId) = some sw := hsw
  have hdw' : s.wallets.find? (fun x => x.id == d.destinationWalletId) = some dw := hdw
  have hswid : sw.id = d.sourceWalletId := by
    have hh := List.find?_some hsw'
    exact eq_of_beq hh
  have hdwid : dw.id = d.destinationWalletId := by
    have hh := List.find?_some hdw'
    exact eq_of_beq hh
  have hu1 := updateWalletVersioned_of_found (-d.amount) hsw'
  have hfind2 : (updatedWallets s.wallets d.sourceWalletId sw.version
      (bumped sw (-d.amount))).find? (fun x => x.id == d.destinationWalletId) = some dw := by
    rw [find?_updatedWallets _ _ (by simp [bumped, hswid]) d.destinationWalletId, hdw']
    have hno : (dw.id == d.sourceWalletId) = false := by
      rw [hdwid]
      exact beq_eq_false_iff_ne.mpr (Ne.symm hne)
    simp [hno]
    intro h1 h2
    exact absurd (hdwid.symm.trans h1) (Ne.symm hne)
  have hu2 := updateWalletVersioned_of_found d.amount hfind2
  simp only [processTransfer, hsw, hdw, if_neg hbal, hu1, hu2]

/-- Looking up the updated id after a conditional update that bumped
the first wallet with that id yields exactly the bumped wallet. -/
theorem find?_updatedWallets_self {ws : List Wallet} {walletId : String}
    {w : Wallet} (δ : Int) (h : ws.find? (fun x => x.id == walletId) = some w) :
    (updatedWallets ws walletId w.version (bumped w δ)).find?
      (fun x => x.id == walletId) = some (bumped w δ) := by
  have hid : w.id = walletId := by
    have hh := List.find?_some h
    exact eq_of_beq hh
  rw [find?_updatedWallets _ _ (by simp [bumped, hid]) walletId, h]
  simp [hid]

/-- Lookups of other ids are untouched by a conditional update. -/
theorem find?_updatedWallets_other {walletId : String} {w' : Wallet}
    (ws : List Wallet) (ver : Nat) (hid : w'.id = walletId) {q : String}
    (hq : q ≠ walletId) :
    (updatedWallets ws walletId ver w').find? (fun x => x.id == q) =
      ws.find? (fun x => x.id == q) := by
  rw [find?_updatedWallets ws ver hid q]
  cases hf : ws.find? (fun x => x.id == q) with
  | none => rfl
  | some y =>
      have hyid : y.id = q := by
        have hh := List.find?_some hf
        exact eq_of_beq hh
      have hno : (y.id == walletId) = false := by
        rw [hyid]
        exact beq_eq_false_iff_ne.mpr hq
      simp [hno]
      intro h1 h2
      exact absurd (hyid.symm.trans h1) hq

/-! ### The settlement handlers never read the ledger rows -/

/-- The result and wallet effect of `processDeposit` do not depend on
the ledger table at all — in particular not on the status of the target
row. -/
theorem processDeposit_ignores_ledger (s : SysState) (d : SettleData)
    (ts' : List Txn) :
    (processDeposit { s with transactions := ts' } d).1 = (processDeposit s d).1 ∧
    (processDeposit { s with transactions := ts' } d).2.wallets =
      (processDeposit s d).2.wallets := by
  unfold processDeposit
  rw [show findWalletAny { s with transactions := ts' } d.walletId =
    findWalletAny s d.walletId from rfl]
  cases hfw : findWalletAny s d.walletId with
  | none => exact ⟨by trivial, by trivial⟩
  | some w =>
      dsimp only
      cases hu : updateWalletVersioned s.wallets d.walletId w.version d.amount with
      | none => exact ⟨by trivial, by trivial⟩
      | some p => exact ⟨by trivial, by trivial⟩

/-- The result and wallet effect of `processWithdrawal` do not depend on
the ledger table at all. -/
theorem processWithdrawal_ignores_ledger (s : SysState) (d : SettleData)
    (ts' : List Txn) :
    (processWithdrawal { s with transactions := ts' } d).1 =
      (processWithdrawal s d).1 ∧
    (processWithdrawal { s with transactions := ts' } d).2.wallets =
      (processWithdrawal s d).2.wallets := by
  unfold processWithdrawal
  rw [show findWalletAny { s with transactions := ts' } d.walletId =
    findWalletAny s d.walletId from rfl]
  cases hfw : findWalletAny s d.walletId with
  | none => exact ⟨by trivial, by trivial⟩
  | some w =>
      dsimp only
      by_cases hb : w.balance < d.amount
      · simp only [if_pos hb]
        exact ⟨by trivial, by trivial⟩
      · simp only [if_neg hb]
        cases hu : updateWalletVersioned s.wallets d.walletId w.version (-d.amount) with
        | none => exact ⟨by trivial, by trivial⟩
        | some p => exact ⟨by trivial, by trivial⟩

/-- The result and wallet effect of `processTransfer` do not depend on
the ledger table at all. -/
theorem processTransfer_ignores_ledger (s : SysState) (d : TransferData)
    (ts' : List Txn) :
    (processTransfer { s with transactions := ts' } d).1 =
      (processTransfer s d).1 ∧
    (processTransfer { s with transactions := ts' } d).2.1.wallets =
      (processTransfer s d).2.1.wallets := by
  unfold processTransfer
  rw [show findWalletAny { s with transactions := ts' } d.sourceWalletId =
    findWalletAny s d.sourceWalletId from rfl]
  rw [show findWalletAny { s with transactions := ts' } d.destinationWalletId =
    findWalletAny s d.destinationWalletId from rfl]
  cases hs : findWalletAny s d.sourceWalletId with
  | none => exact ⟨by trivial, by trivial⟩
  | some sw =>
      cases hd : findWalletAny s d.destinationWalletId with
      | none => exact ⟨by trivial, by trivial⟩
      | some dw =>
          dsimp only
          by_cases hb : sw.balance < d.amount
          · simp only [if_pos hb]
            exact ⟨by trivial, by trivial⟩
          · simp only [if_neg hb]
            cases hu1 : updateWalletVersioned s.wallets d.sourceWalletId sw.version
                (-d.amount) with
            | none => exact ⟨by trivial, by trivial⟩
            | some p =>
                dsimp only
                cases hu2 : updateWalletVersioned p.2 d.destinationWalletId dw.version
                    d.amount with
                | none => exact ⟨by trivial, by trivial⟩
                | some q => exact ⟨by trivial, by trivial⟩

/-! ### C1: the handlers do not re-check the ledger row's status -/

def c1State : SysState := ⟨[⟨"w1", "u1", 100, true, 1⟩],
  [⟨"t1", none, "w1", none, 50, .DEPOSIT, .COMPLETED, none⟩], [], []⟩

/-- C1 is false on the code: the ledger row `t1` is already in the
terminal status COMPLETED, yet re-invoking `processDeposit` for the
same job mutates the wallet balance again (100 → 150, version 1 → 2). -/
theorem c1_counterexample :
    (findTxnByTransactionId c1State "t1").map (fun t => t.status) =
      some .COMPLETED ∧
    (processDeposit c1State ⟨"w1", 50, "t1"⟩).1 = .ok () ∧
    (processDeposit c1State ⟨"w1", 50, "t1"⟩).2.wallets =
      [⟨"w1", "u1", 150, true, 2⟩] := by
  refine ⟨rfl, rfl, by decide⟩

/-- C1 (amended): no settlement handler reads the ledger row's status —
the result of each handler and its effect on the wallet table are identical for
every possible content of the ledger table — so re-invoking a handler
whose row is already terminal re-applies the balance mutation whenever
the body succeeds (in particular whenever the wallet exists, for a
deposit). -/
theorem c1_amended_no_status_recheck :
    (∀ (s : SysState) (d : SettleData) (ts' : List Txn),
      (processDeposit { s with transactions := ts' } d).1 = (processDeposit s d).1 ∧
      (processDeposit { s with transactions := ts' } d).2.wallets =
        (processDeposit s d).2.wallets) ∧
    (∀ (s : SysState) (d : SettleData) (ts' : List Txn),
      (processWithdrawal { s with transactions := ts' } d).1 =
        (processWithdrawal s d).1 ∧
      (processWithdrawal { s with transactions := ts' } d).2.wallets =
        (processWithdrawal s d).2.wallets) ∧
    (∀ (s : SysState) (d : TransferData) (ts' : List Txn),
      (processTransfer { s with transactions := ts' } d).1 =
        (processTransfer s d).1 ∧
      (processTransfer { s with transactions := ts' } d).2.1.wallets =
        (processTransfer s d).2.1.wallets) ∧
    (∀ (s : SysState) (d : SettleData) (w : Wallet) (t : Txn),
      findWalletAny s d.walletId = some w →
      findTxnByTransactionId s d.transactionId = some t →
      (t.status = .COMPLETED ∨ t.status = .FAILED) →
      (processDeposit s d).1 = .ok () ∧
      findWalletAny (processDeposit s d).2 d.walletId = some (bumped w d.amount)) := by
  refine ⟨processDeposit_ignores_ledger, processWithdrawal_ignores_ledger,
    processTransfer_ignores_ledger, ?_⟩
  intro s d w t hw ht hterm
  rw [processDeposit_success hw]
  refine ⟨rfl, ?_⟩
  have h' : s.wallets.find? (fun x => x.id == d.walletId) = some w := hw
  exact find?_updatedWallets_self d.amount h'

/-- Witness for the amended C1 at the counterexample state: the
re-invocation on the COMPLETED row yields the bumped wallet. -/
theorem c1_amended_witness :
    (processDeposit c1State ⟨"w1", 50, "t1"⟩).1 = .ok () ∧
    findWalletAny (processDeposit c1State ⟨"w1", 50, "t1"⟩).2 "w1" =
      some (bumped ⟨"w1", "u1", 100, true, 1⟩ 50) :=
  c1_amended_no_status_recheck.2.2.2 c1State ⟨"w1", 50, "t1"⟩
    ⟨"w1", "u1", 100, true, 1⟩ ⟨"t1", none, "w1", none, 50, .DEPOSIT, .COMPLETED, none⟩
    (by rfl) (by rfl) (Or.inl rfl)

/-! ### C3: update order of the transfer processor -/

def c3State : SysState :=
  ⟨[⟨"a", "ua", 100, true, 0⟩, ⟨"b", "ub", 100, true, 0⟩], [], [], []⟩

/-- C3 is false on the code: for a transfer from wallet `b` to wallet
`a`, the processor issues its two conditional updates in
source-then-destination order `["b", "a"]`, not in the sorted order
`["a", "b"]` (only the batch read uses the sorted list). -/
theorem c3_counterexample :
    (processTransfer c3State ⟨"b", "a", 10, "r1"⟩).1 = .ok () ∧
    (processTransfer c3State ⟨"b", "a", 10, "r1"⟩).2.2.updateOrder = ["b", "a"] ∧
    sortedPair "b" "a" = ["a", "b"] ∧
    (processTransfer c3State ⟨"b", "a", 10, "r1"⟩).2.2.updateOrder ≠
      sortedPair "b" "a" := by
  exact ⟨rfl, by decide, by decide, by decide⟩

/-- C3 (amended): the sorted pair of wallet ids is used only as the id
list of the batch read; the two conditional updates are always issued
source first, then destination, regardless of the id order — on every
successful settlement the update order is exactly
`[sourceWalletId, destinationWalletId]`. -/
theorem c3_amended_update_order (s : SysState) (d : TransferData) :
    (processTransfer s d).2.2.readIds =
      sortedPair d.sourceWalletId d.destinationWalletId ∧
    ((processTransfer s d).2.2.updateOrder = [] ∨
     (processTransfer s d).2.2.updateOrder = [d.sourceWalletId] ∨
     (processTransfer s d).2.2.updateOrder =
       [d.sourceWalletId, d.destinationWalletId]) ∧
    ((processTransfer s d).1 = .ok () →
      (processTransfer s d).2.2.updateOrder =
        [d.sourceWalletId, d.destinationWalletId]) := by
  unfold processTransfer
  cases hs : findWalletAny s d.sourceWalletId with
  | none =>
      refine ⟨by trivial, Or.inl (by trivial), ?_⟩
      intro h
      cases h
  | some sw =>
      cases hd : findWalletAny s d.destinationWalletId with
      | none =>
          refine ⟨by trivial, Or.inl (by trivial), ?_⟩
          intro h
          cases h
      | some dw =>
          by_cases hb : sw.balance < d.amount
          · simp only [if_pos hb]
            refine ⟨by trivial, Or.inl (by trivial), ?_⟩
            intro h
            cases h
          · simp only [if_neg hb]
            cases hu1 : updateWalletVersioned s.wallets d.sourceWalletId sw.version
                (-d.amount) with
            | none =>
                refine ⟨by trivial, Or.inr (Or.inl (by trivial)), ?_⟩
                intro h
                cases h
            | some p =>
                dsimp only
                cases hu2 : updateWalletVersioned p.2 d.destinationWalletId
                    dw.version d.amount with
                | none =>
                    refine ⟨by trivial, Or.inr (Or.inr (by trivial)), ?_⟩
                    intro h
                    cases h
                | some q => exact ⟨by trivial, Or.inr (Or.inr (by trivial)), fun _ => by trivial⟩

/-- Witness for the amended C3 on a concrete successful transfer whose
source id sorts after its destination id. -/
theorem c3_amended_witness :
    (processTransfer c3State ⟨"b", "a", 10, "r2"⟩).2.2.readIds =
      sortedPair "b" "a" ∧
    (processTransfer c3State ⟨"b", "a", 10, "r2"⟩).2.2.updateOrder = ["b", "a"] :=
  ⟨(c3_amended_update_order c3State ⟨"b", "a", 10, "r2"⟩).1,
   (c3_amended_update_order c3State ⟨"b", "a", 10, "r2"⟩).2.2 rfl⟩

/-! ### C4: the retry policy of `executeTransaction` -/

/-- C4 is false on the code: a version-predicate miss surfaces as
Prisma P2025 (the test suite of the repo simulates it as a plain Error),
which is not one of the two codes (`P2034`, `P2028`)
`executeTransaction` retries — the body is attempted exactly once, with
no backoff delay, and the error is rethrown at once. -/
theorem c4_counterexample :
    isRetryable versionPredicateMissErr = false ∧
    (executeTransaction
      (fun _ => (.error versionPredicateMissErr : Except PrismaErr Unit))).attempts = 1 ∧
    (executeTransaction
      (fun _ => (.error versionPredicateMissErr : Except PrismaErr Unit))).delays = [] ∧
    (executeTransaction
      (fun _ => (.error versionPredicateMissErr : Except PrismaErr Unit))).result =
      .error versionPredicateMissErr :=
  ⟨rfl, rfl, rfl, rfl⟩

/-- C4 (amended): only the transient serialization/deadlock codes P2034
and P2028 are retried — up to 3 attempts with sleeps `100·2^i` ms after
each failed attempt (`[100, 200, 400]`, the last sleep occurring even
though no further attempt follows).  Every other failure — including a
version-predicate miss and the business-rule errors — makes exactly one
attempt with no delay and is rethrown immediately; in the processors
the catch block then marks the ledger row(s) FAILED at once, as
`processWithdrawal` does on insufficient funds. -/
theorem c4_amended_retry_policy :
    (∀ e : PrismaErr, isRetryable e = true →
      (executeTransaction (fun _ => (.error e : Except PrismaErr SysState))).attempts = 3 ∧
      (executeTransaction (fun _ => (.error e : Except PrismaErr SysState))).delays =
        [100, 200, 400] ∧
      (executeTransaction (fun _ => (.error e : Except PrismaErr SysState))).result =
        .error e) ∧
    (∀ (e : PrismaErr) (attempt : Nat → Except PrismaErr SysState),
      isRetryable e = false → attempt 0 = .error e →
      (executeTransaction attempt).attempts = 1 ∧
      (executeTransaction attempt).delays = [] ∧
      (executeTransaction attempt).result = .error e) ∧
    (∀ (s : SysState) (d : SettleData) (w : Wallet),
      findWalletAny s d.walletId = some w →
      w.balance < d.amount →
      (processWithdrawal s d).1 = .error (.badRequest "Insufficient funds") ∧
      (processWithdrawal s d).2.wallets = s.wallets ∧
      (processWithdrawal s d).2.transactions =
        setStatusByTransactionId s.transactions d.transactionId .FAILED) := by
  refine ⟨?_, ?_, ?_⟩
  · intro e he
    cases e with
    | P2034 => exact ⟨rfl, rfl, rfl⟩
    | P2028 => exact ⟨rfl, rfl, rfl⟩
    | other c => simp [isRetryable] at he
  · intro e attempt he h0
    unfold executeTransaction
    rw [show (3:Nat) = 2+1 from rfl]
    simp [executeTransactionGo, h0, he]
  · intro s d w hw hlt
    simp [processWithdrawal, hw, if_pos hlt]

def c4Attempt : Nat → Except PrismaErr SysState :=
  fun _ => .error versionPredicateMissErr

/-- Witness for the amended C4 at concrete attempt oracles. -/
theorem c4_amended_witness :
    (executeTransaction (fun _ => (.error .P2034 : Except PrismaErr SysState))).delays =
      [100, 200, 400] ∧
    (executeTransaction c4Attempt).attempts = 1 ∧
    (executeTransaction c4Attempt).delays = [] :=
  ⟨(c4_amended_retry_policy.1 .P2034 rfl).2.1,
   (c4_amended_retry_policy.2.1 versionPredicateMissErr c4Attempt rfl rfl).1,
   (c4_amended_retry_policy.2.1 versionPredicateMissErr c4Attempt rfl rfl).2.1⟩

/-! ### C5: insufficient funds -/

def c5State : SysState := ⟨[⟨"w1", "u1", 10, true, 0⟩], [], [], []⟩

/-- C5 is false on the code: a withdrawal request for 20 against a
balance of 10 throws `BadRequest('Insufficient funds')` *before any
ledger row is created* — the wallet is untouched, but the ledger stays
empty, so no FAILED row is produced by the request. -/
theorem c5_counterexample :
    (10:Int) < 20 ∧
    (withdrawFunds c5State ⟨"w1", 20, none, "t9"⟩).1 =
      .error (.badRequest "Insufficient funds") ∧
    (withdrawFunds c5State ⟨"w1", 20, none, "t9"⟩).2.transactions = [] ∧
    (withdrawFunds c5State ⟨"w1", 20, none, "t9"⟩).2.wallets = c5State.wallets :=
  ⟨by decide, rfl, by decide, by decide⟩

/-- C5 (amended): an insufficient withdrawal leaves the wallet's
balance and version unchanged in either phase, but the FAILED ledger
row arises only when the shortfall is detected at settlement: the
request path (`withdrawFunds`) rejects before creating any row, while
`processWithdrawal` on an already-created PENDING row marks that row
FAILED and leaves the wallet table untouched. -/
theorem c5_amended_insufficient_funds :
    (∀ (s s₁ : SysState) (inp : FundsInput) (bal : Int),
      findTxnByTransactionId s inp.transactionId = none →
      getWalletBalance s inp.walletId = (.ok bal, s₁) →
      bal < inp.amount →
      withdrawFunds s inp = (.error (.badRequest "Insufficient funds"), s₁) ∧
      s₁.wallets = s.wallets ∧ s₁.transactions = s.transactions) ∧
    (∀ (s : SysState) (d : SettleData) (w : Wallet),
      findWalletAny s d.walletId = some w →
      w.balance < d.amount →
      (processWithdrawal s d).1 = .error (.badRequest "Insufficient funds") ∧
      (processWithdrawal s d).2.wallets = s.wallets ∧
      (processWithdrawal s d).2.transactions =
        setStatusByTransactionId s.transactions d.transactionId .FAILED) := by
  refine ⟨?_, ?_⟩
  · intro s s₁ inp bal hnone hgb hlt
    refine ⟨by simp [withdrawFunds, hnone, hgb, if_pos hlt], ?_, ?_⟩
    · have := getWalletBalance_wallets s inp.walletId
      rw [hgb] at this
      exact this
    · have := getWalletBalance_transactions s inp.walletId
      rw [hgb] at this
      exact this
  · intro s d w hw hlt
    simp [processWithdrawal, hw, if_pos hlt]

def c5PendState : SysState := ⟨[⟨"w1", "u1", 10, true, 0⟩],
  [⟨"t9", none, "w1", none, 20, .WITHDRAWAL, .PENDING, none⟩], [], []⟩

/-- Witness for the amended C5: the request-phase rejection on `c5State`
and the settlement-phase FAILED marking on `c5PendState`. -/
theorem c5_amended_witness :
    withdrawFunds c5State ⟨"w1", 20, none, "t9"⟩ =
      (.error (.badRequest "Insufficient funds"), cacheSet c5State "w1" 10) ∧
    (processWithdrawal c5PendState ⟨"w1", 20, "t9"⟩).2.transactions =
      setStatusByTransactionId c5PendState.transactions "t9" .FAILED ∧
    (processWithdrawal c5PendState ⟨"w1", 20, "t9"⟩).2.wallets =
      c5PendState.wallets :=
  ⟨(c5_amended_insufficient_funds.1 c5State (cacheSet c5State "w1" 10)
      ⟨"w1", 20, none, "t9"⟩ 10 (by rfl) (by rfl) (by decide)).1,
   (c5_amended_insufficient_funds.2 c5PendState ⟨"w1", 20, "t9"⟩
      ⟨"w1", "u1", 10, true, 0⟩ (by rfl) (by decide)).2.2,
   (c5_amended_insufficient_funds.2 c5PendState ⟨"w1", 20, "t9"⟩
      ⟨"w1", "u1", 10, true, 0⟩ (by rfl) (by decide)).2.1⟩

/-! ### Inactive wallets never become active again -/

/-- A successful `find?` is unchanged by appending rows on the right. -/
theorem list_find?_append_left {α : Type} {p : α → Bool} {l₁ : List α} {a : α}
    (l₂ : List α) (h : l₁.find? p = some a) : (l₁ ++ l₂).find? p = some a := by
  induction l₁ with
  | nil => simp at h
  | cons b l ih =>
      rw [List.cons_append]
      by_cases hb : p b = true
      · rw [List.find?_cons_of_pos _ hb] at h
        rw [List.find?_cons_of_pos _ hb]
        exact h
      · simp only [Bool.not_eq_true] at hb
        rw [List.find?_cons_of_neg _ (by simp [hb])] at h
        rw [List.find?_cons_of_neg _ (by simp [hb])]
        exact ih h

/-- Deleting a cache key makes its lookup miss. -/
theorem cacheGet_cacheDel (s : SysState) (walletId : String) :
    cacheGet (cacheDel s walletId) walletId = none := by
  unfold cacheGet cacheDel
  rw [List.find?_eq_none.mpr]
  · rfl
  · intro kv hkv
    have hne := (List.mem_filter.mp hkv).2
    simp only [bne_iff_ne, ne_eq] at hne
    simp [hne]

/-- A wallet-table transition under which every id whose first row is
inactive still resolves to an inactive row afterwards. -/
def preservesInactive (ws ws' : List Wallet) : Prop :=
  ∀ (q : String) (w : Wallet), ws.find? (fun x => x.id == q) = some w →
    w.isActive = false →
    ∃ w', ws'.find? (fun x => x.id == q) = some w' ∧ w'.isActive = false

theorem preservesInactive_refl (ws : List Wallet) : preservesInactive ws ws :=
  fun _ w h hIn => ⟨w, h, hIn⟩

theorem preservesInactive_trans {a b c : List Wallet}
    (h₁ : preservesInactive a b) (h₂ : preservesInactive b c) :
    preservesInactive a c := by
  intro q w hf hIn
  obtain ⟨w', hf', hIn'⟩ := h₁ q w hf hIn
  exact h₂ q w' hf' hIn'

/-- A committed conditional balance update never changes any `isActive`
flag, so it preserves inactivity. -/
theorem preservesInactive_updateVersioned {ws : List Wallet} {walletId : String}
    {ver : Nat} {δ : Int} {w' : Wallet} {ws' : List Wallet}
    (h : updateWalletVersioned ws walletId ver δ = some (w', ws')) :
    preservesInactive ws ws' := by
  obtain ⟨wf, hf, hw', hws'⟩ := updateWalletVersioned_some h
  have hfp := List.find?_some hf
  simp only [Bool.and_eq_true] at hfp
  have hfid : wf.id = walletId := eq_of_beq hfp.1
  have hwid' : w'.id = walletId := by rw [hw']; simpa [bumped] using hfid
  intro q w₀ h₀ hIn
  subst hws'
  rw [find?_updatedWallets ws ver hwid' q, h₀]
  refine ⟨_, rfl, ?_⟩
  dsimp only [Option.map]
  by_cases hc : (w₀.id == walletId && w₀.version == ver) = true
  · rw [if_pos hc]
    have hcand := (Bool.and_eq_true _ _).mp hc
    have hq : w₀.id = q := by
      have hh := List.find?_some h₀
      exact eq_of_beq hh
    have hqid : q = walletId := hq.symm.trans (eq_of_beq hcand.1)
    subst hqid
    have h₂ : ws.find? (fun (x : Wallet) => x.id == q && x.version == ver) = some w₀ :=
      list_find?_and_right (fun (x : Wallet) => x.id == q)
        (fun (x : Wallet) => x.version == ver) h₀ hcand.2
    have hwf : wf = w₀ := by
      have := hf.symm.trans h₂
      exact Option.some.inj this
    rw [hw', hwf]
    simpa [bumped] using hIn
  · rw [if_neg hc]
    exact hIn

/-- The final write of `deactivateWallet` only clears `isActive` flags. -/
theorem preservesInactive_deactMap (ws : List Wallet) (walletId : String) :
    preservesInactive ws (ws.map (fun x =>
      if x.id == walletId then { x with isActive := false } else x)) := by
  intro q w₀ h₀ hIn
  have hcomm := list_find?_map_eq (fun (x : Wallet) => x.id == q)
    (fun x => if x.id == walletId then { x with isActive := false } else x)
    (by
      intro x
      dsimp only
      by_cases hx : (x.id == walletId) = true
      · rw [if_pos hx]
      · rw [if_neg hx]) ws
  rw [hcomm, h₀]
  refine ⟨_, rfl, ?_⟩
  dsimp only [Option.map]
  by_cases hx : (w₀.id == walletId) = true
  · rw [if_pos hx]
  · rw [if_neg hx]
    exact hIn

/-! State-component facts: the request paths never touch the wallet
table. -/

theorem depositFunds_wallets (s : SysState) (inp : FundsInput) :
    (depositFunds s inp).2.wallets = s.wallets := by
  unfold depositFunds
  split
  · rfl
  · split <;> rfl

theorem withdrawFunds_wallets (s : SysState) (inp : FundsInput) :
    (withdrawFunds s inp).2.wallets = s.wallets := by
  unfold withdrawFunds
  split
  · rfl
  · split
    · next x e s₁ heq =>
        have := getWalletBalance_wallets s inp.walletId
        rw [heq] at this
        exact this
    · next x bal s₁ heq =>
        have := getWalletBalance_wallets s inp.walletId
        rw [heq] at this
        split
        · exact this
        · exact this

theorem transferFunds_wallets (s : SysState) (inp : TransferInput) :
    (transferFunds s inp).2.wallets = s.wallets := by
  unfold transferFunds
  split
  · rfl
  · split
    · rfl
    · split
      · rfl
      · split
        · next x e s₁ heq =>
            have := getWalletBalance_wallets s inp.sourceWalletId
            rw [heq] at this
            exact this
        · next x bal s₁ heq =>
            have := getWalletBalance_wallets s inp.sourceWalletId
            rw [heq] at this
            split
            · exact this
            · exact this

theorem preservesInactive_createWallet (s : SysState) (inp : CreateWalletInput) :
    preservesInactive s.wallets (createWallet s inp).2.wallets := by
  unfold createWallet
  split
  · exact preservesInactive_refl _
  · intro q w₀ h₀ hIn
    exact ⟨w₀, list_find?_append_left _ h₀, hIn⟩

theorem preservesInactive_processDeposit (s : SysState) (d : SettleData) :
    preservesInactive s.wallets (processDeposit s d).2.wallets := by
  unfold processDeposit
  cases hfw : findWalletAny s d.walletId with
  | none => exact preservesInactive_refl _
  | some w =>
      dsimp only
      cases hu : updateWalletVersioned s.wallets d.walletId w.version d.amount with
      | none => exact preservesInactive_refl _
      | some p =>
          obtain ⟨pw, pws⟩ := p
          dsimp only
          exact preservesInactive_updateVersioned hu

theorem preservesInactive_processWithdrawal (s : SysState) (d : SettleData) :
    preservesInactive s.wallets (processWithdrawal s d).2.wallets := by
  unfold processWithdrawal
  cases hfw : findWalletAny s d.walletId with
  | none => exact preservesInactive_refl _
  | some w =>
      dsimp only
      by_cases hb : w.balance < d.amount
      · simp only [if_pos hb]
        exact preservesInactive_refl _
      · simp only [if_neg hb]
        cases hu : updateWalletVersioned s.wallets d.walletId w.version (-d.amount) with
        | none => exact preservesInactive_refl _
        | some p =>
            obtain ⟨pw, pws⟩ := p
            dsimp only
            exact preservesInactive_updateVersioned hu

theorem preservesInactive_processTransfer (s : SysState) (d : TransferData) :
    preservesInactive s.wallets (processTransfer s d).2.1.wallets := by
  unfold processTransfer
  cases hs : findWalletAny s d.sourceWalletId with
  | none => exact preservesInactive_refl _
  | some sw =>
      cases hd : findWalletAny s d.destinationWalletId with
      | none => exact preservesInactive_refl _
      | some dw =>
          dsimp only
          by_cases hb : sw.balance < d.amount
          · simp only [if_pos hb]
            exact preservesInactive_refl _
          · simp only [if_neg hb]
            cases hu1 : updateWalletVersioned s.wallets d.sourceWalletId sw.version
                (-d.amount) with
            | none => exact preservesInactive_refl _
            | some p =>
                obtain ⟨pw, pws⟩ := p
                dsimp only
                cases hu2 : updateWalletVersioned pws d.destinationWalletId dw.version
                    d.amount with
                | none => exact preservesInactive_refl _
                | some q =>
                    obtain ⟨qw, qws⟩ := q
                    dsimp only
                    exact preservesInactive_trans
                      (preservesInactive_updateVersioned hu1)
                      (preservesInactive_updateVersioned hu2)

theorem preservesInactive_deactivateWallet (s : SysState) (walletId : String) :
    preservesInactive s.wallets (deactivateWallet s walletId).2.wallets := by
  unfold deactivateWallet
  split
  · exact preservesInactive_refl _
  · split
    · next x e s₁ heq =>
        have := getWalletBalance_wallets s walletId
        rw [heq] at this
        rw [show ((Except.error e : Except Err Wallet), s₁).2.wallets = s₁.wallets from rfl, this]
        exact preservesInactive_refl _
    · next x bal s₁ heq =>
        have hws : s₁.wallets = s.wallets := by
          have := getWalletBalance_wallets s walletId
          rw [heq] at this
          exact this
        split
        · rw [show ((Except.error (Err.badRequest
            "Cannot deactivate wallet with non-zero balance") : Except Err Wallet),
            s₁).2.wallets = s₁.wallets from rfl, hws]
          exact preservesInactive_refl _
        · rw [show (cacheDel { s₁ with wallets := s₁.wallets.map (fun x =>
            if x.id == walletId then { x with isActive := false } else x) }
            walletId).wallets = s₁.wallets.map (fun x =>
            if x.id == walletId then { x with isActive := false } else x) from rfl, hws]
          exact preservesInactive_deactMap _ _

/-! ### C9: the deactivation guard -/

def c9StaleState : SysState := ⟨[⟨"w1", "u1", 5, true, 0⟩], [], [("w1", 0)], []⟩

/-- C9 is false on the code: the guard reads the balance through the
cache, so with a stale cache entry of 0 a wallet whose stored balance
is 5 (nonzero) is deactivated successfully. -/
theorem c9_counterexample :
    (5:Int) ≠ 0 ∧
    (deactivateWallet c9StaleState "w1").1 = .ok ⟨"w1", "u1", 5, false, 0⟩ ∧
    (deactivateWallet c9StaleState "w1").2.wallets = [⟨"w1", "u1", 5, false, 0⟩] :=
  ⟨by decide, rfl, by decide⟩

/-- C9 (amended): the deactivation guard compares the *cache-first
balance read* with zero.  When the cache entry for the wallet is absent
or agrees with the stored balance, this gives exactly the claimed
behavior: a nonzero (positive) balance fails with BadRequest and the
wallet table unchanged; a zero balance succeeds, clears `isActive` and
deletes the cache entry.  Moreover no operation of the service ever
turns an inactive wallet active again. -/
theorem c9_amended_deactivation_guard :
    (∀ (s : SysState) (walletId : String) (w : Wallet),
      findWalletActive s walletId = some w →
      (cacheGet s walletId = none ∨ cacheGet s walletId = some w.balance) →
      0 < w.balance →
      (deactivateWallet s walletId).1 =
        .error (.badRequest "Cannot deactivate wallet with non-zero balance") ∧
      (deactivateWallet s walletId).2.wallets = s.wallets) ∧
    (∀ (s : SysState) (walletId : String) (w : Wallet),
      findWalletActive s walletId = some w →
      (cacheGet s walletId = none ∨ cacheGet s walletId = some w.balance) →
      w.balance = 0 →
      (deactivateWallet s walletId).1 = .ok { w with isActive := false } ∧
      (deactivateWallet s walletId).2.wallets = s.wallets.map (fun x =>
        if x.id == walletId then { x with isActive := false } else x) ∧
      cacheGet (deactivateWallet s walletId).2 walletId = none) ∧
    (∀ (s : SysState) (inp : CreateWalletInput),
      preservesInactive s.wallets (createWallet s inp).2.wallets) ∧
    (∀ (s : SysState) (walletId : String),
      preservesInactive s.wallets (getWalletBalance s walletId).2.wallets) ∧
    (∀ (s : SysState) (inp : FundsInput),
      preservesInactive s.wallets (depositFunds s inp).2.wallets) ∧
    (∀ (s : SysState) (inp : FundsInput),
      preservesInactive s.wallets (withdrawFunds s inp).2.wallets) ∧
    (∀ (s : SysState) (inp : TransferInput),
      preservesInactive s.wallets (transferFunds s inp).2.wallets) ∧
    (∀ (s : SysState) (walletId : String),
      preservesInactive s.wallets (deactivateWallet s walletId).2.wallets) ∧
    (∀ (s : SysState) (d : SettleData),
      preservesInactive s.wallets (processDeposit s d).2.wallets) ∧
    (∀ (s : SysState) (d : SettleData),
      preservesInactive s.wallets (processWithdrawal s d).2.wallets) ∧
    (∀ (s : SysState) (d : TransferData),
      preservesInactive s.wallets (processTransfer s d).2.1.wallets) := by
  refine ⟨?_, ?_, preservesInactive_createWallet, ?_, ?_, ?_, ?_,
    preservesInactive_deactivateWallet, preservesInactive_processDeposit,
    preservesInactive_processWithdrawal, preservesInactive_processTransfer⟩
  · intro s walletId w hfw hcache hpos
    have hgw : getWallet s walletId = .ok w := by simp [getWallet, hfw]
    rcases hcache with hc | hc
    · have hgb : getWalletBalance s walletId = (.ok w.balance, cacheSet s walletId w.balance) := by
        simp [getWalletBalance, hc, hgw]
      simp [deactivateWallet, hgw, hgb, if_pos hpos, cacheSet]
    · have hgb : getWalletBalance s walletId = (.ok w.balance, s) := by
        simp [getWalletBalance, hc]
      simp [deactivateWallet, hgw, hgb, if_pos hpos]
  · intro s walletId w hfw hcache hzero
    have hgw : getWallet s walletId = .ok w := by simp [getWallet, hfw]
    have hnpos : ¬ 0 < w.balance := by rw [hzero]; exact lt_irrefl 0
    rcases hcache with hc | hc
    · have hgb : getWalletBalance s walletId = (.ok w.balance, cacheSet s walletId w.balance) := by
        simp [getWalletBalance, hc, hgw]
      refine ⟨by simp [deactivateWallet, hgw, hgb, if_neg hnpos], ?_, ?_⟩
      · simp [deactivateWallet, hgw, hgb, if_neg hnpos, cacheDel, cacheSet]
      · simp only [deactivateWallet, hgw, hgb, if_neg hnpos]
        exact cacheGet_cacheDel _ _
    · have hgb : getWalletBalance s walletId = (.ok w.balance, s) := by
        simp [getWalletBalance, hc]
      refine ⟨by simp [deactivateWallet, hgw, hgb, if_neg hnpos], ?_, ?_⟩
      · simp [deactivateWallet, hgw, hgb, if_neg hnpos, cacheDel]
      · simp only [deactivateWallet, hgw, hgb, if_neg hnpos]
        exact cacheGet_cacheDel _ _
  · intro s walletId
    rw [getWalletBalance_wallets]
    exact preservesInactive_refl _
  · intro s inp
    rw [depositFunds_wallets]
    exact preservesInactive_refl _
  · intro s inp
    rw [withdrawFunds_wallets]
    exact preservesInactive_refl _
  · intro s inp
    rw [transferFunds_wallets]
    exact preservesInactive_refl _

def c9TinyState : SysState := ⟨[⟨"w1", "u1", 1, true, 0⟩], [], [], []⟩

def c9ZeroState : SysState := ⟨[⟨"w2", "u2", 0, true, 4⟩], [], [("w2", 0)], []⟩

/-- Witness for the amended C9: a balance of one 10⁻⁸ unit (the written
amount 0.00000001) with a coherent cache fails; a zero balance succeeds and
clears the cache entry. -/
theorem c9_amended_witness :
    (deactivateWallet c9TinyState "w1").1 =
      .error (.badRequest "Cannot deactivate wallet with non-zero balance") ∧
    (deactivateWallet c9ZeroState "w2").1 = .ok ⟨"w2", "u2", 0, false, 4⟩ ∧
    cacheGet (deactivateWallet c9ZeroState "w2").2 "w2" = none :=
  ⟨(c9_amended_deactivation_guard.1 c9TinyState "w1" ⟨"w1", "u1", 1, true, 0⟩
      (by rfl) (Or.inl rfl) (by decide)).1,
   (c9_amended_deactivation_guard.2.1 c9ZeroState "w2" ⟨"w2", "u2", 0, true, 4⟩
      (by rfl) (Or.inr rfl) rfl).1,
   (c9_amended_deactivation_guard.2.1 c9ZeroState "w2" ⟨"w2", "u2", 0, true, 4⟩
      (by rfl) (Or.inr rfl) rfl).2.2⟩

/-! ### C6: ledger status lifecycle -/

def c6State : SysState := ⟨[⟨"w1", "u1", 100, true, 0⟩],
  [⟨"t1", none, "w1", none, 50, .WITHDRAWAL, .FAILED, none⟩], [], []⟩

/-- C6 is false on the code: the processors' status writes are
unguarded `updateMany` calls, so a row already in the terminal status
FAILED (say after an earlier insufficient-funds settlement) is driven
to COMPLETED when the job is re-delivered and the balance now
suffices — a second transition out of a terminal state. -/
theorem c6_counterexample :
    (findTxnByTransactionId c6State "t1").map (fun t => t.status) =
      some .FAILED ∧
    ((processWithdrawal c6State ⟨"w1", 50, "t1"⟩).2.transactions.map
      (fun t => t.status)) = [.COMPLETED] :=
  ⟨rfl, by decide⟩

/-- C6 (amended): every row is created PENDING (each request path only
ever appends PENDING rows), and the settlement processors only ever
rewrite statuses to COMPLETED or FAILED (never back to PENDING, never
CANCELLED) while touching nothing else of a row — but the writes are
unguarded, so a terminal status can be overwritten again (see the
counterexample), i.e. "exactly one transition" does not hold. -/
theorem c6_amended_status_lifecycle :
    (∀ (s : SysState) (inp : FundsInput) (t : Txn),
      t ∈ (depositFunds s inp).2.transactions →
      t ∈ s.transactions ∨ t.status = .PENDING) ∧
    (∀ (s : SysState) (inp : FundsInput) (t : Txn),
      t ∈ (withdrawFunds s inp).2.transactions →
      t ∈ s.transactions ∨ t.status = .PENDING) ∧
    (∀ (s : SysState) (inp : TransferInput) (t : Txn),
      t ∈ (transferFunds s inp).2.transactions →
      t ∈ s.transactions ∨ t.status = .PENDING) ∧
    (∀ (s : SysState) (d : SettleData),
      onlyTerminalWrites s.transactions (processDeposit s d).2.transactions) ∧
    (∀ (s : SysState) (d : SettleData),
      onlyTerminalWrites s.transactions (processWithdrawal s d).2.transactions) ∧
    (∀ (s : SysState) (d : TransferData),
      onlyTerminalWrites s.transactions (processTransfer s d).2.1.transactions) ∧
    (∀ (s : SysState) (walletId : String),
      (deactivateWallet s walletId).2.transactions = s.transactions) := by
  refine ⟨?_, ?_, ?_, ?_, ?_, ?_, ?_⟩
  · intro s inp t ht
    unfold depositFunds at ht
    split at ht
    · exact Or.inl ht
    · split at ht
      · exact Or.inl ht
      · rcases List.mem_append.mp ht with h | h
        · exact Or.inl h
        · rcases List.mem_singleton.mp h with rfl
          exact Or.inr rfl
  · intro s inp t ht
    unfold withdrawFunds at ht
    split at ht
    · exact Or.inl ht
    · split at ht
      · next x e s₁ heq =>
          left
          have hts := getWalletBalance_transactions s inp.walletId
          rw [heq] at hts
          rw [show ((Except.error e : Except Err Txn), s₁).2.transactions =
            s₁.transactions from rfl, hts] at ht
          exact ht
      · next x bal s₁ heq =>
          have hts := getWalletBalance_transactions s inp.walletId
          rw [heq] at hts
          have hts' : s₁.transactions = s.transactions := hts
          split at ht
          · exact Or.inl (hts' ▸ ht)
          · dsimp only at ht
            rcases List.mem_append.mp ht with h | h
            · exact Or.inl (hts' ▸ h)
            · rcases List.mem_singleton.mp h with rfl
              exact Or.inr rfl
  · intro s inp t ht
    unfold transferFunds at ht
    split at ht
    · exact Or.inl ht
    · split at ht
      · exact Or.inl ht
      · split at ht
        · exact Or.inl ht
        · split at ht
          · next x e s₁ heq =>
              left
              have hts := getWalletBalance_transactions s inp.sourceWalletId
              rw [heq] at hts
              rw [show ((Except.error e : Except Err (List Txn)), s₁).2.transactions =
                s₁.transactions from rfl, hts] at ht
              exact ht
          · next x bal s₁ heq =>
              have hts := getWalletBalance_transactions s inp.sourceWalletId
              rw [heq] at hts
              have hts' : s₁.transactions = s.transactions := hts
              split at ht
              · exact Or.inl (hts' ▸ ht)
              · rcases List.mem_append.mp ht with h | h
                · exact Or.inl (hts' ▸ h)
                · rcases List.mem_cons.mp h with rfl | h
                  · exact Or.inr rfl
                  · rcases List.mem_singleton.mp h with rfl
                    exact Or.inr rfl
  · intro s d
    unfold processDeposit
    cases hfw : findWalletAny s d.walletId with
    | none => exact onlyTerminalWrites_setTid _ _ (Or.inr rfl)
    | some w =>
        dsimp only
        cases hu : updateWalletVersioned s.wallets d.walletId w.version d.amount with
        | none => exact onlyTerminalWrites_setTid _ _ (Or.inr rfl)
        | some p => exact onlyTerminalWrites_setTid _ _ (Or.inl rfl)
  · intro s d
    unfold processWithdrawal
    cases hfw : findWalletAny s d.walletId with
    | none => exact onlyTerminalWrites_setTid _ _ (Or.inr rfl)
    | some w =>
        dsimp only
        by_cases hb : w.balance < d.amount
        · simp only [if_pos hb]
          exact onlyTerminalWrites_setTid _ _ (Or.inr rfl)
        · simp only [if_neg hb]
          cases hu : updateWalletVersioned s.wallets d.walletId w.version (-d.amount) with
          | none => exact onlyTerminalWrites_setTid _ _ (Or.inr rfl)
          | some p => exact onlyTerminalWrites_setTid _ _ (Or.inl rfl)
  · intro s d
    unfold processTransfer
    cases hs : findWalletAny s d.sourceWalletId with
    | none => exact onlyTerminalWrites_setRef _ _ (Or.inr rfl)
    | some sw =>
        cases hd : findWalletAny s d.destinationWalletId with
        | none => exact onlyTerminalWrites_setRef _ _ (Or.inr rfl)
        | some dw =>
            dsimp only
            by_cases hb : sw.balance < d.amount
            · simp only [if_pos hb]
              exact onlyTerminalWrites_setRef _ _ (Or.inr rfl)
            · simp only [if_neg hb]
              cases hu1 : updateWalletVersioned s.wallets d.sourceWalletId sw.version
                  (-d.amount) with
              | none => exact onlyTerminalWrites_setRef _ _ (Or.inr rfl)
              | some p =>
                  dsimp only
                  cases hu2 : updateWalletVersioned p.2 d.destinationWalletId
                      dw.version d.amount with
                  | none => exact onlyTerminalWrites_setRef _ _ (Or.inr rfl)
                  | some q => exact onlyTerminalWrites_setRef _ _ (Or.inl rfl)
  · intro s walletId
    unfold deactivateWallet
    split
    · rfl
    · split
      · next x e s₁ heq =>
          have := getWalletBalance_transactions s walletId
          rw [heq] at this
          exact this
      · next x bal s₁ heq =>
          have hts := getWalletBalance_transactions s walletId
          rw [heq] at hts
          split
          · exact hts
          · exact hts

def c6WitState : SysState := ⟨[⟨"w1", "u1", 100, true, 0⟩],
  [⟨"t0", none, "w1", none, 7, .DEPOSIT, .PENDING, none⟩], [], []⟩

/-- Witness for the amended C6: a fresh deposit row is PENDING, and a
settlement drives an existing row only to a terminal status. -/
theorem c6_amended_witness :
    ((⟨"t1", none, "w1", none, 5, .DEPOSIT, .PENDING, none⟩ : Txn) ∈
        c6WitState.transactions ∨
      (⟨"t1", none, "w1", none, 5, .DEPOSIT, .PENDING, none⟩ : Txn).status =
        .PENDING) ∧
    onlyTerminalWrites c6WitState.transactions
      (processDeposit c6WitState ⟨"w1", 5, "t0"⟩).2.transactions :=
  ⟨c6_amended_status_lifecycle.1 c6WitState ⟨"w1", 5, none, "t1"⟩
      ⟨"t1", none, "w1", none, 5, .DEPOSIT, .PENDING, none⟩ (by decide),
   c6_amended_status_lifecycle.2.2.2.1 c6WitState ⟨"w1", 5, "t0"⟩⟩

/-! ### C8: wallet invariants -/

/-- All balances in a wallet table are non-negative. -/
def walletsNonneg (ws : List Wallet) : Prop := ∀ w ∈ ws, 0 ≤ w.balance

theorem walletsNonneg_updated {ws : List Wallet} {walletId : String} {ver : Nat}
    {w' : Wallet} (hnn : walletsNonneg ws) (hw' : 0 ≤ w'.balance) :
    walletsNonneg (updatedWallets ws walletId ver w') := by
  intro x hx
  rcases mem_updatedWallets hx with h | h
  · exact hnn x h
  · rw [h]
    exact hw'

/-- A conditional update with a non-negative delta keeps all balances
non-negative. -/
theorem walletsNonneg_updateVersioned {ws ws' : List Wallet} {walletId : String}
    {ver : Nat} {δ : Int} {w' : Wallet} (hnn : walletsNonneg ws)
    (h : updateWalletVersioned ws walletId ver δ = some (w', ws')) (hδ : 0 ≤ δ) :
    walletsNonneg ws' := by
  obtain ⟨wf, hf, hw', hws'⟩ := updateWalletVersioned_some h
  subst hws'
  apply walletsNonneg_updated hnn
  rw [hw']
  have hwf := hnn wf (List.mem_of_find?_eq_some hf)
  simp only [bumped]
  omega

theorem walletsNonneg_deactMap {ws : List Wallet} (hnn : walletsNonneg ws)
    (walletId : String) :
    walletsNonneg (ws.map (fun x =>
      if x.id == walletId then { x with isActive := false } else x)) := by
  intro x hx
  rcases List.mem_map.mp hx with ⟨y, hy, hxy⟩
  by_cases hc : (y.id == walletId) = true
  · rw [if_pos hc] at hxy
    rw [← hxy]
    exact hnn y hy
  · rw [if_neg hc] at hxy
    rw [← hxy]
    exact hnn y hy

def c8State : SysState := ⟨[⟨"w1", "u1", 0, false, 0⟩],
  [⟨"t1", none, "w1", none, 50, .DEPOSIT, .PENDING, none⟩], [], []⟩

/-- C8 is false on the code: `processDeposit` looks the wallet up with
no `isActive` filter, so a wallet with `isActive = false` still accepts
a settlement mutation — its balance moves 0 → 50 and its version 0 → 1
while it is inactive. -/
theorem c8_counterexample :
    (findWalletAny c8State "w1").map (fun w => w.isActive) = some false ∧
    (processDeposit c8State ⟨"w1", 50, "t1"⟩).1 = .ok () ∧
    (processDeposit c8State ⟨"w1", 50, "t1"⟩).2.wallets =
      [⟨"w1", "u1", 50, false, 1⟩] :=
  ⟨rfl, rfl, by decide⟩

/-- C8 (amended): `balance ≥ 0` is preserved by every operation (with
the DTO-validated positivity of deposit/transfer amounts and of the
initial balance), and each committed mutation bumps the mutated
wallet's version by exactly 1 while leaving all other wallets
untouched; but the `isActive = false` guard holds only on the request
paths — the settlement processors look wallets up without it and will
mutate an inactive wallet (see the counterexample). -/
theorem c8_amended_wallet_invariants :
    (∀ (s : SysState) (inp : CreateWalletInput), walletsNonneg s.wallets →
      0 ≤ inp.initialBalance → walletsNonneg (createWallet s inp).2.wallets) ∧
    (∀ (s : SysState) (walletId : String), walletsNonneg s.wallets →
      walletsNonneg (getWalletBalance s walletId).2.wallets) ∧
    (∀ (s : SysState) (inp : FundsInput), walletsNonneg s.wallets →
      walletsNonneg (depositFunds s inp).2.wallets) ∧
    (∀ (s : SysState) (inp : FundsInput), walletsNonneg s.wallets →
      walletsNonneg (withdrawFunds s inp).2.wallets) ∧
    (∀ (s : SysState) (inp : TransferInput), walletsNonneg s.wallets →
      walletsNonneg (transferFunds s inp).2.wallets) ∧
    (∀ (s : SysState) (walletId : String), walletsNonneg s.wallets →
      walletsNonneg (deactivateWallet s walletId).2.wallets) ∧
    (∀ (s : SysState) (d : SettleData), walletsNonneg s.wallets →
      0 ≤ d.amount → walletsNonneg (processDeposit s d).2.wallets) ∧
    (∀ (s : SysState) (d : SettleData), walletsNonneg s.wallets →
      walletsNonneg (processWithdrawal s d).2.wallets) ∧
    (∀ (s : SysState) (d : TransferData), walletsNonneg s.wallets →
      0 ≤ d.amount → walletsNonneg (processTransfer s d).2.1.wallets) ∧
    (∀ (w : Wallet) (δ : Int),
      (bumped w δ).version = w.version + 1 ∧ (bumped w δ).balance = w.balance + δ) ∧
    (∀ (s : SysState) (d : SettleData) (w : Wallet),
      findWalletAny s d.walletId = some w →
      findWalletAny (processDeposit s d).2 d.walletId = some (bumped w d.amount) ∧
      ∀ q, q ≠ d.walletId →
        findWalletAny (processDeposit s d).2 q = findWalletAny s q) ∧
    (∀ (s : SysState) (d : SettleData) (w : Wallet),
      findWalletAny s d.walletId = some w → ¬ w.balance < d.amount →
      findWalletAny (processWithdrawal s d).2 d.walletId =
        some (bumped w (-d.amount)) ∧
      ∀ q, q ≠ d.walletId →
        findWalletAny (processWithdrawal s d).2 q = findWalletAny s q) ∧
    (∀ (s : SysState) (d : TransferData) (sw dw : Wallet),
      findWalletAny s d.sourceWalletId = some sw →
      findWalletAny s d.destinationWalletId = some dw →
      d.sourceWalletId ≠ d.destinationWalletId → ¬ sw.balance < d.amount →
      findWalletAny (processTransfer s d).2.1 d.sourceWalletId =
        some (bumped sw (-d.amount)) ∧
      findWalletAny (processTransfer s d).2.1 d.destinationWalletId =
        some (bumped dw d.amount) ∧
      ∀ q, q ≠ d.sourceWalletId → q ≠ d.destinationWalletId →
        findWalletAny (processTransfer s d).2.1 q = findWalletAny s q) := by
  refine ⟨?_, ?_, ?_, ?_, ?_, ?_, ?_, ?_, ?_, ?_, ?_, ?_, ?_⟩
  · intro s inp hnn h0
    unfold createWallet
    split
    · exact hnn
    · intro x hx
      rcases List.mem_append.mp hx with h | h
      · exact hnn x h
      · rcases List.mem_singleton.mp h with rfl
        exact h0
  · intro s walletId hnn
    rw [getWalletBalance_wallets]
    exact hnn
  · intro s inp hnn
    rw [depositFunds_wallets]
    exact hnn
  · intro s inp hnn
    rw [withdrawFunds_wallets]
    exact hnn
  · intro s inp hnn
    rw [transferFunds_wallets]
    exact hnn
  · intro s walletId hnn
    unfold deactivateWallet
    split
    · exact hnn
    · split
      · next x e s₁ heq =>
          have hws := getWalletBalance_wallets s walletId
          rw [heq] at hws
          have hws' : s₁.wallets = s.wallets := hws
          intro x hx
          exact hnn x (hws' ▸ hx)
      · next x bal s₁ heq =>
          have hws := getWalletBalance_wallets s walletId
          rw [heq] at hws
          have hws' : s₁.wallets = s.wallets := hws
          split
          · intro x hx
            exact hnn x (hws' ▸ hx)
          · rw [show (cacheDel { s₁ with wallets := s₁.wallets.map (fun x =>
              if x.id == walletId then { x with isActive := false } else x) }
              walletId).wallets = s₁.wallets.map (fun x =>
              if x.id == walletId then { x with isActive := false } else x) from rfl,
              hws']
            exact walletsNonneg_deactMap hnn walletId
  · intro s d hnn hδ
    unfold processDeposit
    cases hfw : findWalletAny s d.walletId with
    | none => exact hnn
    | some w =>
        dsimp only
        cases hu : updateWalletVersioned s.wallets d.walletId w.version d.amount with
        | none => exact hnn
        | some p =>
            obtain ⟨pw, pws⟩ := p
            dsimp only
            exact walletsNonneg_updateVersioned hnn hu hδ
  · intro s d hnn
    unfold processWithdrawal
    cases hfw : findWalletAny s d.walletId with
    | none => exact hnn
    | some w =>
        dsimp only
        by_cases hb : w.balance < d.amount
        · simp only [if_pos hb]
          exact hnn
        · simp only [if_neg hb]
          have h' : s.wallets.find? (fun x => x.id == d.walletId) = some w := hfw
          rw [updateWalletVersioned_of_found (-d.amount) h']
          apply walletsNonneg_updated hnn
          have := hnn w (List.mem_of_find?_eq_some h')
          simp only [bumped]
          omega
  · intro s d hnn hδ
    unfold processTransfer
    cases hs : findWalletAny s d.sourceWalletId with
    | none => exact hnn
    | some sw =>
        cases hd : findWalletAny s d.destinationWalletId with
        | none => exact hnn
        | some dw =>
            dsimp only
            by_cases hb : sw.balance < d.amount
            · simp only [if_pos hb]
              exact hnn
            · simp only [if_neg hb]
              have hs' : s.wallets.find? (fun x => x.id == d.sourceWalletId) = some sw := hs
              rw [updateWalletVersioned_of_found (-d.amount) hs']
              dsimp only
              have hnn₁ : walletsNonneg (updatedWallets s.wallets d.sourceWalletId
                  sw.version (bumped sw (-d.amount))) := by
                apply walletsNonneg_updated hnn
                have := hnn sw (List.mem_of_find?_eq_some hs')
                simp only [bumped]
                omega
              cases hu2 : updateWalletVersioned (updatedWallets s.wallets
                  d.sourceWalletId sw.version (bumped sw (-d.amount)))
                  d.destinationWalletId dw.version d.amount with
              | none => exact hnn
              | some q =>
                  obtain ⟨qw, qws⟩ := q
                  dsimp only
                  exact walletsNonneg_updateVersioned hnn₁ hu2 hδ
  · intro w δ
    exact ⟨rfl, rfl⟩
  · intro s d w hw
    rw [processDeposit_success hw]
    have h' : s.wallets.find? (fun x => x.id == d.walletId) = some w := hw
    have hid : w.id = d.walletId := by
      have hh := List.find?_some h'
      exact eq_of_beq hh
    refine ⟨find?_updatedWallets_self d.amount h', ?_⟩
    intro q hq
    exact find?_updatedWallets_other _ _ (by simp [bumped, hid]) hq
  · intro s d w hw hbal
    rw [processWithdrawal_success hw hbal]
    have h' : s.wallets.find? (fun x => x.id == d.walletId) = some w := hw
    have hid : w.id = d.walletId := by
      have hh := List.find?_some h'
      exact eq_of_beq hh
    refine ⟨find?_updatedWallets_self (-d.amount) h', ?_⟩
    intro q hq
    exact find?_updatedWallets_other _ _ (by simp [bumped, hid]) hq
  · intro s d sw dw hsw hdw hne hbal
    rw [processTransfer_success hsw hdw hne hbal]
    have hsw' : s.wallets.find? (fun x => x.id == d.sourceWalletId) = some sw := hsw
    have hdw' : s.wallets.find? (fun x => x.id == d.destinationWalletId) = some dw := hdw
    have hsid : sw.id = d.sourceWalletId := by
      have hh := List.find?_some hsw'
      exact eq_of_beq hh
    have hdid : dw.id = d.destinationWalletId := by
      have hh := List.find?_some hdw'
      exact eq_of_beq hh
    have hfind2 : (updatedWallets s.wallets d.sourceWalletId sw.version
        (bumped sw (-d.amount))).find? (fun x => x.id == d.destinationWalletId) =
        some dw :=
      find?_updatedWallets_other _ _ (by simp [bumped, hsid]) (Ne.symm hne)
      |>.trans hdw'
    refine ⟨?_, ?_, ?_⟩
    · rw [show (findWalletAny (cacheSet (cacheSet { s with
          wallets := updatedWallets (updatedWallets s.wallets d.sourceWalletId
            sw.version (bumped sw (-d.amount))) d.destinationWalletId dw.version
            (bumped dw d.amount),
          transactions := setStatusByReferenceId s.transactions d.referenceId
            .COMPLETED } d.sourceWalletId (bumped sw (-d.amount)).balance)
          d.destinationWalletId (bumped dw d.amount).balance)
          d.sourceWalletId) =
        ((updatedWallets (updatedWallets s.wallets d.sourceWalletId sw.version
          (bumped sw (-d.amount))) d.destinationWalletId dw.version
          (bumped dw d.amount)).find? (fun x => x.id == d.sourceWalletId)) from rfl]
      rw [find?_updatedWallets_other _ _ (by simp [bumped, hdid]) hne]
      exact find?_updatedWallets_self (-d.amount) hsw'
    · exact find?_updatedWallets_self d.amount hfind2
    · intro q hq1 hq2
      rw [show (findWalletAny (cacheSet (cacheSet { s with
          wallets := updatedWallets (updatedWallets s.wallets d.sourceWalletId
            sw.version (bumped sw (-d.amount))) d.destinationWalletId dw.version
            (bumped dw d.amount),
          transactions := setStatusByReferenceId s.transactions d.referenceId
            .COMPLETED } d.sourceWalletId (bumped sw (-d.amount)).balance)
          d.destinationWalletId (bumped dw d.amount).balance) q) =
        ((updatedWallets (updatedWallets s.wallets d.sourceWalletId sw.version
          (bumped sw (-d.amount))) d.destinationWalletId dw.version
          (bumped dw d.amount)).find? (fun x => x.id == q)) from rfl]
      rw [find?_updatedWallets_other _ _ (by simp [bumped, hdid]) hq2]
      exact find?_updatedWallets_other _ _ (by simp [bumped, hsid]) hq1

def c8WitState : SysState :=
  ⟨[⟨"x", "ux", 30, true, 2⟩, ⟨"y", "uy", 40, true, 7⟩], [], [], []⟩

/-- Witness for the amended C8 on a concrete two-wallet transfer: both
versions advance by exactly 1 and balances stay non-negative. -/
theorem c8_amended_witness :
    walletsNonneg (processTransfer c8WitState ⟨"x", "y", 30, "r"⟩).2.1.wallets ∧
    findWalletAny (processTransfer c8WitState ⟨"x", "y", 30, "r"⟩).2.1 "x" =
      some (bumped ⟨"x", "ux", 30, true, 2⟩ (-30)) ∧
    findWalletAny (processTransfer c8WitState ⟨"x", "y", 30, "r"⟩).2.1 "y" =
      some (bumped ⟨"y", "uy", 40, true, 7⟩ 30) :=
  ⟨(c8_amended_wallet_invariants.2.2.2.2.2.2.2.2.1 c8WitState ⟨"x", "y", 30, "r"⟩
      (by intro w hw; fin_cases hw <;> decide) (by decide)),
   (c8_amended_wallet_invariants.2.2.2.2.2.2.2.2.2.2.2.2 c8WitState
      ⟨"x", "y", 30, "r"⟩ ⟨"x", "ux", 30, true, 2⟩ ⟨"y", "uy", 40, true, 7⟩
      (by rfl) (by rfl) (by decide) (by decide)).1,
   (c8_amended_wallet_invariants.2.2.2.2.2.2.2.2.2.2.2.2 c8WitState
      ⟨"x", "y", 30, "r"⟩ ⟨"x", "ux", 30, true, 2⟩ ⟨"y", "uy", 40, true, 7⟩
      (by rfl) (by rfl) (by decide) (by decide)).2.1⟩

end WalletMgmt
